import Mathlib

/-!
Verification of the terraform-ls job-scheduling / record-state core.

This file shallowly embeds the parts of the repository that the checked
properties are about:

* the module record store (`internal/features/modules/state`, file
  `module_store.go`: `ModuleRecord`, `Copy`, `Add`, `AddIfNotExists`,
  `Update*`/`Set*State`, `providerRequirementsForModule`),
* the stacks record store (`internal/features/stacks/state`),
* the parse job functions (`ParseModuleConfiguration`, `ParseStack`),
* the event bus (`internal/eventbus/bus.go`),
* the modules feature's job-enqueue logic (`modules_feature.go` /
  `events.go`: `didOpen`, `decodeDeclaredModuleCalls`,
  `decodeModuleAtPath`, `collectReferences`).

Go-side conventions used throughout the embedding:

* Go `error` values become `Option GoErr` (`none` = `nil`).
* Go maps become association lists; a nil-able map becomes
  `Option (List (k × v))` where `none` models the `nil` map; map reads of
  a missing key yield the zero value, mirroring Go.
* go-memdb transactions become functional state passing: an aborted
  transaction returns the store unchanged, a committed one returns the
  new store.  Object identity (Go pointers handed to readers) is made
  explicit for the module store with a heap of allocated records, so
  copy-on-write isolation is a real statement.
* External collaborators (the HCL parser, `os.Stat`, the job store's
  `EnqueueJob`, which live outside `src/`) are modelled as environment
  parameters, per the spec's boundary contracts.
-/

namespace TfLs

/-- Concrete Go `error` values that flow through the embedded code.
`multi` models a `*multierror.Error` (hashicorp/go-multierror) holding the
collected simple errors. -/
inductive BaseErr where
  | alreadyExistsErr (idx : String)
  | recordNotFoundErr (source : String)
  | stateNotChangedErr (dir : String)
  | tooDeepNesting (modPath : String) (maxNesting : Nat)
  | otherErr (msg : String)
deriving DecidableEq, Repr

inductive GoErr where
  | base (e : BaseErr)
  | multi (errs : List BaseErr)
deriving DecidableEq, Repr

/-- A nil-able `*multierror.Error`: `none` models the nil pointer. -/
abbrev MultiError := Option (List BaseErr)

/-- `multierror.Append(err, e)`: flattens a `*multierror.Error` argument,
skips nil arguments, returns the combined (never-nil) `*Error`. -/
def multierrorAppend (errs : MultiError) (e : Option GoErr) : MultiError :=
  let cur := errs.getD []
  match e with
  | none => some cur
  | some (.base b) => some (cur ++ [b])
  | some (.multi l) => some (cur ++ l)

/-- `(*multierror.Error).ErrorOrNil()`: nil receiver or empty list yield nil. -/
def errorOrNil (errs : MultiError) : Option GoErr :=
  match errs with
  | none => none
  | some [] => none
  | some l => some (.multi l)

/-- Association-list lookup, mirroring a Go map read (first binding wins;
the embedding keeps keys unique). -/
def assocFind {α β : Type} [DecidableEq α] (l : List (α × β)) (k : α) : Option β :=
  match l with
  | [] => none
  | (k', v) :: rest => if k' = k then some v else assocFind rest k

/-- Association-list write, mirroring a Go map assignment `m[k] = v`. -/
def assocUpsert {α β : Type} [DecidableEq α] (l : List (α × β)) (k : α) (v : β) :
    List (α × β) :=
  match l with
  | [] => [(k, v)]
  | (k', v') :: rest =>
    if k' = k then (k, v) :: rest else (k', v') :: assocUpsert rest k v

/-- Per-field operation lifecycle state.  Modelled from the spec: the
`operation` package is not under `src/`; the spec fixes the tri-state
`Unknown | Loading | Loaded` and the code under `src/` only ever uses
those three constants. -/
inductive OpState where
  | unknown
  | loading
  | loaded
deriving DecidableEq, Repr

/-- `ast.DiagnosticSource`: the four diagnostic sources initialised by
`newModule`. -/
inductive DiagnosticSource where
  | hclParsingSource
  | schemaValidationSource
  | referenceValidationSource
  | terraformValidateSource
deriving DecidableEq, Repr

/-- `ast.DiagnosticSourceState` (`map[DiagnosticSource]OpState`), modelled
as a total assignment: a Go read of a missing key yields the zero value
`OpStateUnknown`, so the nil/empty map is `DiagnosticSourceState.empty`. -/
structure DiagnosticSourceState where
  hclParsing : OpState := .unknown
  schemaValidation : OpState := .unknown
  referenceValidation : OpState := .unknown
  terraformValidate : OpState := .unknown
deriving DecidableEq, Repr

def DiagnosticSourceState.empty : DiagnosticSourceState := {}

def DiagnosticSourceState.get (s : DiagnosticSourceState) : DiagnosticSource → OpState
  | .hclParsingSource => s.hclParsing
  | .schemaValidationSource => s.schemaValidation
  | .referenceValidationSource => s.referenceValidation
  | .terraformValidateSource => s.terraformValidate

def DiagnosticSourceState.set (s : DiagnosticSourceState) :
    DiagnosticSource → OpState → DiagnosticSourceState
  | .hclParsingSource, st => { s with hclParsing := st }
  | .schemaValidationSource, st => { s with schemaValidation := st }
  | .referenceValidationSource, st => { s with referenceValidation := st }
  | .terraformValidateSource, st => { s with terraformValidate := st }

/-- Opaque parsed HCL file (`*hcl.File`); the stores carry it without
inspecting it, so one abstract payload field suffices. -/
structure HclFile where
  content : Nat
deriving DecidableEq, Repr

/-- Opaque `hcl.Diagnostic`. -/
structure Diag where
  summary : String
deriving DecidableEq, Repr

/-- `ast.ModFiles` / `ast.StacksFiles`: filename → parsed file. -/
abbrev ModFiles := List (String × HclFile)

/-- `ast.ModDiags`: filename → diagnostics. -/
abbrev ModDiags := List (String × List Diag)

/-- Opaque `reference.Target` / `reference.Origin`. -/
structure RefTarget where
  id : Nat
deriving DecidableEq, Repr

structure RefOrigin where
  id : Nat
deriving DecidableEq, Repr

/-- Opaque `*version.Constraint`: `constraintContains` compares these by
pointer equality, modelled as equality of opaque identifiers. -/
abbrev Constraint := Nat

/-- `tfmod.ProviderRequirements`: provider address → version constraints. -/
abbrev ProviderRequirements := List (String × List Constraint)

/-- `tfmod.ModuleSourceAddr`: only the `tfmod.LocalSourceAddr`
implementation is distinguished by the embedded code. -/
inductive SourceAddr where
  | localAddr (path : String)
  | remoteAddr (addr : String)
deriving DecidableEq, Repr

/-- `tfmod.ModuleCall` as stored in module metadata. -/
structure ModuleCall where
  localName : String
  sourceAddr : SourceAddr
  version : List Constraint
  inputNames : List String
  rangePtr : Option Nat
deriving DecidableEq, Repr

/-- `tfmod.DeclaredModuleCall` (built by `DeclaredModuleCalls`). -/
structure DeclaredModuleCall where
  localName : String
  sourceAddr : SourceAddr
  version : List Constraint
  inputNames : List String
  rangePtr : Option Nat
deriving DecidableEq, Repr

/-- `tfmod.Meta` — the fields `UpdateMetadata` copies. -/
structure Meta where
  coreRequirements : List Constraint := []
  cloud : Option String := none
  backend : Option String := none
  providerReferences : List (String × String) := []
  providerRequirements : ProviderRequirements := []
  vars : List String := []
  outputs : List String := []
  filenames : List String := []
  moduleCalls : List ModuleCall := []
deriving DecidableEq, Repr

/-- `state.ModuleMetadata`. -/
structure ModuleMetadata where
  coreRequirements : List Constraint := []
  cloud : Option String := none
  backend : Option String := none
  providerReferences : List (String × String) := []
  providerRequirements : ProviderRequirements := []
  vars : List String := []
  outputs : List String := []
  filenames : List String := []
  moduleCalls : List ModuleCall := []
deriving DecidableEq, Repr

/-- The `ModuleMetadata{...}` literal `UpdateMetadata` builds from a
`*tfmod.Meta`, field by field. -/
def ModuleMetadata.ofMeta (meta : Meta) : ModuleMetadata :=
  { coreRequirements := meta.coreRequirements
    cloud := meta.cloud
    backend := meta.backend
    providerReferences := meta.providerReferences
    providerRequirements := meta.providerRequirements
    vars := meta.vars
    outputs := meta.outputs
    filenames := meta.filenames
    moduleCalls := meta.moduleCalls }

/-- `(ModuleMetadata).Copy()` — field-wise copy. -/
def ModuleMetadata.Copy (m : ModuleMetadata) : ModuleMetadata :=
  { coreRequirements := m.coreRequirements
    cloud := m.cloud
    backend := m.backend
    providerReferences := m.providerReferences
    providerRequirements := m.providerRequirements
    vars := m.vars
    outputs := m.outputs
    filenames := m.filenames
    moduleCalls := m.moduleCalls }

/-- `state.ModuleRecord` (module_store.go). -/
structure ModuleRecord where
  path : String
  providerSchemaState : OpState := .unknown
  providerSchemaErr : Option GoErr := none
  preloadEmbeddedSchemaState : OpState := .unknown
  refTargets : List RefTarget := []
  refTargetsErr : Option GoErr := none
  refTargetsState : OpState := .unknown
  refOrigins : List RefOrigin := []
  refOriginsErr : Option GoErr := none
  refOriginsState : OpState := .unknown
  parsedModuleFiles : Option ModFiles := none
  moduleParsingErr : Option GoErr := none
  meta : ModuleMetadata := {}
  metaErr : Option GoErr := none
  metaState : OpState := .unknown
  moduleDiagnostics : Option (List (DiagnosticSource × ModDiags)) := none
  moduleDiagnosticsState : DiagnosticSourceState := {}
deriving DecidableEq, Repr

/-- `(*ModuleRecord).Copy()`: a fresh record object holding the same field
values (slices/maps are deep-copied in Go; with value semantics every
field carries over unchanged).  Allocation of the fresh object happens at
the insertion sites in the store operations below. -/
def ModuleRecord.Copy (m : ModuleRecord) : ModuleRecord :=
  { path := m.path
    providerSchemaErr := m.providerSchemaErr
    providerSchemaState := m.providerSchemaState
    preloadEmbeddedSchemaState := m.preloadEmbeddedSchemaState
    refTargets := m.refTargets
    refTargetsErr := m.refTargetsErr
    refTargetsState := m.refTargetsState
    refOrigins := m.refOrigins
    refOriginsErr := m.refOriginsErr
    refOriginsState := m.refOriginsState
    moduleParsingErr := m.moduleParsingErr
    meta := m.meta.Copy
    metaErr := m.metaErr
    metaState := m.metaState
    moduleDiagnosticsState := m.moduleDiagnosticsState
    parsedModuleFiles := m.parsedModuleFiles
    moduleDiagnostics := m.moduleDiagnostics }

/-- `newModule(modPath)`: the empty record; every explicit state and every
zero-valued state reads as `Unknown`. -/
def newModule (modPath : String) : ModuleRecord :=
  { path := modPath
    providerSchemaState := .unknown
    preloadEmbeddedSchemaState := .unknown
    refTargetsState := .unknown
    metaState := .unknown
    moduleDiagnosticsState :=
      { hclParsing := .unknown
        schemaValidation := .unknown
        referenceValidation := .unknown
        terraformValidate := .unknown } }

/-- The go-memdb table for module records, with explicit object identity:
`heap` maps an allocation address to the record object stored there,
`table` maps a path to the address of its current record.  A Go reader is
handed an address; `txn.Insert` allocates a fresh address and repoints the
table, which is exactly the copy-on-write discipline of the source. -/
structure ModuleDB where
  heap : List (Nat × ModuleRecord) := []
  nextAddr : Nat := 0
  table : List (String × Nat) := []
  maxModuleNesting : Nat := 50
deriving DecidableEq, Repr

def ModuleDB.heapGet (db : ModuleDB) (a : Nat) : Option ModuleRecord :=
  assocFind db.heap a

def ModuleDB.tableGet (db : ModuleDB) (path : String) : Option Nat :=
  assocFind db.table path

/-- Allocate a fresh record object (the `&ModuleRecord{...}` the source
builds before `txn.Insert`). -/
def ModuleDB.alloc (db : ModuleDB) (r : ModuleRecord) : ModuleDB × Nat :=
  ({ db with heap := (db.nextAddr, r) :: db.heap, nextAddr := db.nextAddr + 1 },
   db.nextAddr)

/-- `txn.Insert(tableName, mod)` on a freshly built record followed by
`txn.Commit()`: publish the new object under its path. -/
def ModuleDB.insertRecord (db : ModuleDB) (path : String) (r : ModuleRecord) : ModuleDB :=
  let (db', a) := db.alloc r
  { db' with table := assocUpsert db'.table path a }

/-- The record currently visible under `path` (what a fresh
`ModuleByPath` read observes). -/
def ModuleDB.recordAt (db : ModuleDB) (path : String) : Option ModuleRecord :=
  match db.tableGet path with
  | none => none
  | some a => db.heapGet a

namespace ModuleStore

/-- `moduleByPath(txn, path)`: returns the stored object — address plus
its current value.  A nil object yields `RecordNotFoundError`. -/
def moduleByPath (db : ModuleDB) (path : String) : Except GoErr (Nat × ModuleRecord) :=
  match db.tableGet path with
  | none => .error (.base (.recordNotFoundErr path))
  | some a =>
    match db.heapGet a with
    | none => .error (.base (.recordNotFoundErr path))
    | some r => .ok (a, r)

/-- `(*ModuleStore).ModuleByPath` — the reader-facing lookup. -/
def ModuleByPath (db : ModuleDB) (path : String) : Except GoErr (Nat × ModuleRecord) :=
  moduleByPath db path

/-- `(*ModuleStore).Exists`. -/
def Exists (db : ModuleDB) (path : String) : Bool :=
  (db.tableGet path).isSome

/-- `(*ModuleStore).Add`: `AlreadyExistsError` when a record for the path
exists (transaction aborted, store unchanged); otherwise inserts
`newModule(path)` and commits.  (`queueModuleChange` feeds the change
notifier and does not touch the table; it is not modelled.) -/
def Add (db : ModuleDB) (path : String) : ModuleDB × Option GoErr :=
  match db.tableGet path with
  | some _ => (db, some (.base (.alreadyExistsErr path)))
  | none => (db.insertRecord path (newModule path), none)

/-- `(*ModuleStore).AddIfNotExists`. -/
def AddIfNotExists (db : ModuleDB) (path : String) : ModuleDB × Option GoErr :=
  match moduleByPath db path with
  | .error _ => Add db path
  | .ok _ => (db, none)

/-- `moduleCopyByPath` + field mutation + `txn.Insert` + `txn.Commit`:
the shared copy-on-write update skeleton of every `Set*`/`Update*`. -/
def updateWith (db : ModuleDB) (path : String) (f : ModuleRecord → ModuleRecord) :
    ModuleDB × Option GoErr :=
  match moduleByPath db path with
  | .error e => (db, some e)
  | .ok (_, oldMod) =>
    let mod := f oldMod.Copy
    (db.insertRecord path mod, none)

/-- `(*ModuleStore).SetMetaState`. -/
def SetMetaState (db : ModuleDB) (path : String) (st : OpState) : ModuleDB × Option GoErr :=
  updateWith db path (fun m => { m with metaState := st })

/-- `(*ModuleStore).SetModuleDiagnosticsState`. -/
def SetModuleDiagnosticsState (db : ModuleDB) (path : String)
    (source : DiagnosticSource) (st : OpState) : ModuleDB × Option GoErr :=
  updateWith db path
    (fun m => { m with moduleDiagnosticsState := m.moduleDiagnosticsState.set source st })

/-- `(*ModuleStore).SetReferenceTargetsState`. -/
def SetReferenceTargetsState (db : ModuleDB) (path : String) (st : OpState) :
    ModuleDB × Option GoErr :=
  updateWith db path (fun m => { m with refTargetsState := st })

/-- `(*ModuleStore).SetReferenceOriginsState`. -/
def SetReferenceOriginsState (db : ModuleDB) (path : String) (st : OpState) :
    ModuleDB × Option GoErr :=
  updateWith db path (fun m => { m with refOriginsState := st })

/-- The `txn.Defer(...)` discipline shared by the `Update*` operations
that advance a state: if the main transaction failed, the deferred
state-setter never runs; otherwise it runs as its own transaction after
the commit and its error is discarded. -/
def andThenSet (res : ModuleDB × Option GoErr)
    (setter : ModuleDB → ModuleDB × Option GoErr) : ModuleDB × Option GoErr :=
  match res with
  | (db1, some e) => (db1, some e)
  | (db1, none) => ((setter db1).1, none)

/-- `(*ModuleStore).UpdateParsedModuleFiles`: stores the parsed files and
the parsing error.  No state field is touched and no deferred state
transition is registered in the source. -/
def UpdateParsedModuleFiles (db : ModuleDB) (path : String)
    (pFiles : Option ModFiles) (pErr : Option GoErr) : ModuleDB × Option GoErr :=
  updateWith db path
    (fun m => { m with parsedModuleFiles := pFiles, moduleParsingErr := pErr })

/-- `(*ModuleStore).UpdateMetadata`: copy-on-write write of `Meta` +
`MetaErr`, with `txn.Defer(SetMetaState(path, Loaded))` running as its own
transaction once the main one commits (its error is discarded). -/
def UpdateMetadata (db : ModuleDB) (path : String) (meta : Meta) (mErr : Option GoErr) :
    ModuleDB × Option GoErr :=
  andThenSet
    (updateWith db path
      (fun mod => { mod with meta := ModuleMetadata.ofMeta meta, metaErr := mErr }))
    (fun db1 => SetMetaState db1 path .loaded)

/-- `(*ModuleStore).UpdateModuleDiagnostics`, with its deferred
`SetModuleDiagnosticsState(path, source, Loaded)`. -/
def UpdateModuleDiagnostics (db : ModuleDB) (path : String)
    (source : DiagnosticSource) (diags : ModDiags) : ModuleDB × Option GoErr :=
  andThenSet
    (updateWith db path
      (fun mod => { mod with
        moduleDiagnostics :=
          some (assocUpsert (mod.moduleDiagnostics.getD []) source diags) }))
    (fun db1 => SetModuleDiagnosticsState db1 path source .loaded)

/-- `(*ModuleStore).UpdateReferenceTargets`, with its deferred
`SetReferenceTargetsState(path, Loaded)`. -/
def UpdateReferenceTargets (db : ModuleDB) (path : String)
    (refs : List RefTarget) (rErr : Option GoErr) : ModuleDB × Option GoErr :=
  andThenSet
    (updateWith db path (fun m => { m with refTargets := refs, refTargetsErr := rErr }))
    (fun db1 => SetReferenceTargetsState db1 path .loaded)

/-- `(*ModuleStore).UpdateReferenceOrigins`, with its deferred
`SetReferenceOriginsState(path, Loaded)`. -/
def UpdateReferenceOrigins (db : ModuleDB) (path : String)
    (origins : List RefOrigin) (roErr : Option GoErr) : ModuleDB × Option GoErr :=
  andThenSet
    (updateWith db path (fun m => { m with refOrigins := origins, refOriginsErr := roErr }))
    (fun db1 => SetReferenceOriginsState db1 path .loaded)

end ModuleStore

/-- `state.StacksRecord` (stacks feature).  Pointer identity is not needed
by any checked property of this store, so it is modelled as a plain
path-indexed table below. -/
structure StacksRecord where
  path : String
  parsedStacksFiles : Option ModFiles := none
  stacksParsingErr : Option GoErr := none
  stacksDiagnostics : Option (List (DiagnosticSource × ModDiags)) := none
  stacksDiagnosticsState : DiagnosticSourceState := {}
deriving DecidableEq, Repr

/-- `newStacks(stacksPath)`: only the path is set; every state reads as
the zero value `Unknown`. -/
def newStacks (stacksPath : String) : StacksRecord :=
  { path := stacksPath }

/-- `(*StacksRecord).Copy()`: the source only carries over `path` and
`StacksDiagnosticsState`; the parsed files, parsing error and diagnostics
of the copy are zero values. -/
def StacksRecord.Copy (s : StacksRecord) : StacksRecord :=
  { path := s.path
    stacksDiagnosticsState := s.stacksDiagnosticsState }

/-- The go-memdb table of stacks records, path-indexed. -/
structure StacksDB where
  table : List (String × StacksRecord) := []
deriving DecidableEq, Repr

namespace StacksStore

def recordAt (db : StacksDB) (path : String) : Option StacksRecord :=
  assocFind db.table path

/-- `stacksByPath(txn, path)`. -/
def stacksByPath (db : StacksDB) (path : String) : Except GoErr StacksRecord :=
  match recordAt db path with
  | none => .error (.base (.recordNotFoundErr path))
  | some r => .ok r

/-- `(*StacksStore).StacksRecordByPath`. -/
def StacksRecordByPath (db : StacksDB) (path : String) : Except GoErr StacksRecord :=
  stacksByPath db path

/-- `(*StacksStore).Add`: `AlreadyExistsError` when present (transaction
aborted, table unchanged), otherwise inserts `newStacks(path)`. -/
def Add (db : StacksDB) (path : String) : StacksDB × Option GoErr :=
  match recordAt db path with
  | some _ => (db, some (.base (.alreadyExistsErr path)))
  | none => ({ table := assocUpsert db.table path (newStacks path) }, none)

/-- `(*StacksStore).SetStacksDiagnosticsState`: copy-on-write write of one
diagnostics state. -/
def SetStacksDiagnosticsState (db : StacksDB) (path : String)
    (source : DiagnosticSource) (st : OpState) : StacksDB × Option GoErr :=
  match stacksByPath db path with
  | .error e => (db, some e)
  | .ok old =>
    let stack := old.Copy
    let stack := { stack with
      stacksDiagnosticsState := stack.stacksDiagnosticsState.set source st }
    ({ table := assocUpsert db.table path stack }, none)

/-- `(*StacksStore).UpdateParsedStacksFiles`: stores files + parsing error
on a copy.  No state field is touched and nothing is deferred. -/
def UpdateParsedStacksFiles (db : StacksDB) (path : String)
    (pFiles : Option ModFiles) (pErr : Option GoErr) : StacksDB × Option GoErr :=
  match stacksByPath db path with
  | .error e => (db, some e)
  | .ok old =>
    let stack := old.Copy
    let stack := { stack with parsedStacksFiles := pFiles, stacksParsingErr := pErr }
    ({ table := assocUpsert db.table path stack }, none)

end StacksStore

/-- The request context a job function reads: `job.IgnoreState(ctx)` and
`lsctx.DocumentContext(ctx)` (modelled from the spec — the `job` and
`context` packages are not under `src/`; callers in `src/` set
`IgnoreState` from the job's flag and the LSP layer fills the document
context). -/
structure JobCtx where
  ignoreState : Bool := false
  isDidChangeRequest : Bool := false
  languageID : String := ""
  uri : String := ""

/-- External parser/filesystem collaborators of the parse jobs, per the
spec's boundary contract (`Parse(fs, path) -> (files, diagnostics, error)`,
synchronous and pure). -/
structure ParseEnv where
  parseModuleFiles : String → Option ModFiles × ModDiags × Option GoErr
  parseModuleFile : String → HclFile × List Diag × Option GoErr
  parseStacksFiles : String → Option ModFiles × ModDiags × Option GoErr
  pathFromURI : String → Except GoErr String

/-- Go's `filepath.Base`. -/
def goFilepathBase (p : String) : String :=
  ((p.splitOn "/").reverse).headD p

/-- Go's `filepath.Join`; paths are opaque store keys for every checked
property, so lexical cleaning is not modelled. -/
def filepathJoin (dir rel : String) : String := dir ++ "/" ++ rel

/-- `jobs.ParseModuleConfiguration` (flavors/modules/jobs/parse.go): the
state-skip check, the one-file re-parse branch for didChange requests, the
whole-directory parse branch, and the two store updates. -/
def ParseModuleConfiguration (env : ParseEnv) (ctx : JobCtx) (db : ModuleDB)
    (modPath : String) : ModuleDB × Option GoErr :=
  match ModuleStore.ModuleByPath db modPath with
  | .error e => (db, some e)
  | .ok (_, mod) =>
    -- Avoid parsing if it is already in progress or already known
    if mod.moduleDiagnosticsState.hclParsing ≠ .unknown ∧ ¬ ctx.ignoreState then
      (db, some (.base (.stateNotChangedErr modPath)))
    else if mod.moduleDiagnosticsState.hclParsing = .loaded ∧ ctx.isDidChangeRequest
        ∧ ctx.languageID = "terraform" then
      -- the file has already been parsed: only examine the changed file
      match ModuleStore.SetModuleDiagnosticsState db modPath .hclParsingSource .loading with
      | (db1, some e) => (db1, some e)
      | (db1, none) =>
        match env.pathFromURI ctx.uri with
        | .error e => (db1, some e)
        | .ok filePath =>
          let fileName := goFilepathBase filePath
          match env.parseModuleFile filePath with
          | (_, _, some e) => (db1, some e)
          | (f, fDiags, none) =>
            let existingFiles := (mod.parsedModuleFiles.getD []) -- .Copy()
            let files := some (assocUpsert existingFiles fileName f)
            let existingDiags :=
              match assocFind (mod.moduleDiagnostics.getD []) .hclParsingSource with
              | none => ([] : ModDiags) -- make(ast.ModDiags)
              | some d => d -- .Copy()
            let diags := assocUpsert existingDiags fileName fDiags
            parseModuleConfigurationTail db1 modPath files diags
    else
      -- first-time parsing: parse the whole module
      match ModuleStore.SetModuleDiagnosticsState db modPath .hclParsingSource .loading with
      | (db1, some e) => (db1, some e)
      | (db1, none) =>
        match env.parseModuleFiles modPath with
        | (_, _, some e) => (db1, some e) -- `if err != nil { return err }`
        | (files, diags, none) => parseModuleConfigurationTail db1 modPath files diags
where
  /-- The shared tail after the parse branches: `err` is nil here, so the
  stored parsing error is nil and the function returns nil. -/
  parseModuleConfigurationTail (db : ModuleDB) (modPath : String)
      (files : Option ModFiles) (diags : ModDiags) : ModuleDB × Option GoErr :=
    match ModuleStore.UpdateParsedModuleFiles db modPath files none with
    | (db2, some sErr) => (db2, some sErr)
    | (db2, none) =>
      match ModuleStore.UpdateModuleDiagnostics db2 modPath .hclParsingSource diags with
      | (db3, some sErr) => (db3, some sErr)
      | (db3, none) => (db3, none)

/-- `jobs.ParseStack` (features/stacks/jobs/parse.go): same state-skip
check; the didChange single-file branch is entirely commented out in the
source, so it falls through with zero-valued `files`; otherwise the whole
directory is parsed (diagnostics discarded) and stored. -/
def ParseStack (env : ParseEnv) (ctx : JobCtx) (db : StacksDB) (path : String) :
    StacksDB × Option GoErr :=
  match StacksStore.StacksRecordByPath db path with
  | .error e => (db, some e)
  | .ok stack =>
    -- Avoid parsing if it is already in progress or already known
    if stack.stacksDiagnosticsState.hclParsing ≠ .unknown ∧ ¬ ctx.ignoreState then
      (db, some (.base (.stateNotChangedErr path)))
    else if stack.stacksDiagnosticsState.hclParsing = .loaded ∧ ctx.isDidChangeRequest
        ∧ ctx.languageID = "terraform-stacks" then
      -- branch body is commented out in the source: `files` keeps its
      -- zero value and no state is written
      parseStackTail db path none
    else
      match StacksStore.SetStacksDiagnosticsState db path .hclParsingSource .loading with
      | (db1, some e) => (db1, some e)
      | (db1, none) =>
        match env.parseStacksFiles path with
        | (_, _, some e) => (db1, some e)
        | (files, _, none) => parseStackTail db1 path files
where
  /-- Shared tail: `err` is nil on both paths that reach it. -/
  parseStackTail (db : StacksDB) (path : String) (files : Option ModFiles) :
      StacksDB × Option GoErr :=
    match StacksStore.UpdateParsedStacksFiles db path files none with
    | (db2, some sErr) => (db2, some sErr)
    | (db2, none) => (db2, none)

/-- `constraintContains(vCons, cons)`: linear scan comparing constraint
pointers (opaque identifiers here). -/
def constraintContains (vCons : List Constraint) (cons : Constraint) : Bool :=
  match vCons with
  | [] => false
  | c :: rest => if c = cons then true else constraintContains rest cons

/-- One iteration of the requirements-merging loop body of
`providerRequirementsForModule` for the entry `(pAddr, pCons)` of a child's
requirements: the inner loop appends the constraints missing from the
pre-loop binding `cons`, and then the final write overwrites the binding
with `pCons` wholesale (exactly as the source does). -/
def mergeRequirementsStep (requirements : ProviderRequirements)
    (entry : String × List Constraint) : ProviderRequirements :=
  let pAddr := entry.1
  let pCons := entry.2
  let requirements :=
    match assocFind requirements pAddr with
    | some cons =>
      pCons.foldl
        (fun reqs c =>
          if constraintContains cons c then reqs
          else assocUpsert reqs pAddr ((assocFind reqs pAddr).getD [] ++ [c]))
        requirements
    | none => requirements
  assocUpsert requirements pAddr pCons

/-- Merge a child module's requirements into the accumulator:
`for pAddr, pCons := range pr { ... }`. -/
def mergeRequirements (requirements : ProviderRequirements)
    (pr : ProviderRequirements) : ProviderRequirements :=
  pr.foldl mergeRequirementsStep requirements

/-- The `for _, mc := range mod.Meta.ModuleCalls` loop of
`providerRequirementsForModule`: non-local sources are skipped, local ones
recurse through `recurse` (the enclosing function at the incremented
nesting level); a recursive error aborts with the requirements collected
so far. -/
def providerReqsCallsLoop (recurse : String → Option (ProviderRequirements × Option GoErr))
    (modPath : String) :
    List ModuleCall → ProviderRequirements → Option (ProviderRequirements × Option GoErr)
  | [], requirements => some (requirements, none)
  | mc :: rest, requirements =>
    match mc.sourceAddr with
    | .remoteAddr _ => providerReqsCallsLoop recurse modPath rest requirements
    | .localAddr localAddr =>
      let fullPath := filepathJoin modPath localAddr
      match recurse fullPath with
      | none => none
      | some (_, some err) => some (requirements, some err)
      | some (pr, none) =>
        providerReqsCallsLoop recurse modPath rest (mergeRequirements requirements pr)

/-- `(*ModuleStore).providerRequirementsForModule(modPath, level)`.  The Go
function recurses on the module-call graph guarded only by the nesting
level; the embedding makes the call stack explicit as `fuel` (one unit per
nested Go call, `none` = the recursion would go deeper than `fuel`), so
that termination of the source's recursion is a provable statement rather
than an artifact of Lean totality. -/
def providerReqsFuel : Nat → ModuleDB → String → Nat →
    Option (ProviderRequirements × Option GoErr)
  | 0, _, _, _ => none
  | fuel + 1, db, modPath, level =>
    -- naive cycle check: bail out beyond MaxModuleNesting
    if level > db.maxModuleNesting then
      some ([], some (.base (.tooDeepNesting modPath db.maxModuleNesting)))
    else
      match ModuleStore.ModuleByPath db modPath with
      | .error e => some ([], some e)
      | .ok (_, mod) =>
        let requirements := mod.meta.providerRequirements.foldl
          (fun reqs kv => assocUpsert reqs kv.1 kv.2) []
        providerReqsCallsLoop
          (fun fullPath => providerReqsFuel fuel db fullPath (level + 1))
          modPath mod.meta.moduleCalls requirements

/-- `(*ModuleStore).ProviderRequirementsForModule(modPath)` =
`providerRequirementsForModule(modPath, 0)`, with enough stack for the
guarded recursion (shown sufficient below). -/
def ProviderRequirementsForModule (db : ModuleDB) (modPath : String) :
    Option (ProviderRequirements × Option GoErr) :=
  providerReqsFuel (db.maxModuleNesting + 2) db modPath 0

/-!  Event bus (`internal/eventbus/bus.go`).  A channel is identified by
the order in which `Subscribe` created it; its buffered contents are the
queue of delivered events.  All three methods run under the topic's single
mutex, so they are atomic steps here; the fixed buffer capacity only
affects *when* a blocking `Publish` completes, not how many copies each
channel receives, so capacity is not modelled. -/

/-- `eventbus.Topic[T]`. -/
structure Topic (T : Type) where
  subscribers : List Nat := []
  channels : List (Nat × List T) := []
  nextChan : Nat := 0

/-- `NewTopic[T]()`. -/
def Topic.new {T : Type} : Topic T := {}

/-- `(*Topic).Subscribe()`: registers a fresh buffered channel and returns
it. -/
def Topic.subscribe {T : Type} (t : Topic T) : Topic T × Nat :=
  ({ subscribers := t.subscribers ++ [t.nextChan]
     channels := t.channels ++ [(t.nextChan, [])]
     nextChan := t.nextChan + 1 },
   t.nextChan)

/-- `(*Topic).Unsubscribe(subscriber)`: rebuilds the distribution list
without the given channel; the channel itself (and whatever is buffered in
it) is left to its reader. -/
def Topic.unsubscribe {T : Type} (t : Topic T) (subscriber : Nat) : Topic T :=
  { t with subscribers := t.subscribers.filter (fun s => s ≠ subscriber) }

/-- Enqueue one event into one channel's buffer (`subscriber <- event`). -/
def chanSend {T : Type} (channels : List (Nat × List T)) (c : Nat) (e : T) :
    List (Nat × List T) :=
  match channels with
  | [] => []
  | (c', q) :: rest =>
    if c' = c then (c', q ++ [e]) :: rest else (c', q) :: chanSend rest c e

/-- `(*Topic).Publish(event)`: sends the event to every currently
registered subscriber, in registration order. -/
def Topic.publish {T : Type} (t : Topic T) (e : T) : Topic T :=
  { t with channels := t.subscribers.foldl (fun chs s => chanSend chs s e) t.channels }

/-- Publish a sequence of events in order. -/
def Topic.publishAll {T : Type} (t : Topic T) (es : List T) : Topic T :=
  es.foldl Topic.publish t

/-- The buffered contents of one channel. -/
def Topic.chanBuf {T : Type} (t : Topic T) (c : Nat) : Option (List T) :=
  assocFind t.channels c

/-- Topics reachable from `Topic.new` by the three methods keep their
channel keys distinct (every `Subscribe` makes a fresh one) and below
`nextChan`, and register only existing channels. -/
def Topic.WF {T : Type} (t : Topic T) : Prop :=
  (t.channels.map Prod.fst).Nodup ∧
  (∀ c ∈ t.channels.map Prod.fst, c < t.nextChan) ∧
  (∀ s ∈ t.subscribers, s ∈ t.channels.map Prod.fst) ∧
  t.subscribers.Nodup

/-!  The modules feature's enqueue logic (`modules_feature.go` /
`features/modules/events.go`).  The job store itself is not under `src/`;
per the spec it assigns an opaque unique ID at enqueue time, records the
job's directory, type, `DependsOn`, `IgnoreState`, `Priority` and `Defer`,
and `EnqueueJob` may fail (every caller handles an error).  Job IDs are
strings in the source (`job.ID`, zero value `""`). -/

/-- `op.OpType` tags used by the modules feature (stringified via
`.String()` in the source; the enum itself is faithful for these). -/
inductive OpType where
  | opParseModuleConfiguration
  | opLoadModuleMetadata
  | opPreloadEmbeddedSchema
  | opDecodeReferenceTargets
  | opDecodeReferenceOrigins
  | opGetModuleDataFromRegistry
deriving DecidableEq, Repr

/-- `job.JobPriority`; the modules feature only ever sets `LowPriority`
explicitly, everything else keeps the default (high, per the spec). -/
inductive JobPriority where
  | low
  | high
deriving DecidableEq, Repr

/-- The scheduling-relevant attributes of an enqueued `job.Job` (the
executable `Func` closure runs later against the stores and is not part of
the enqueue-time record). -/
structure JobRec where
  dir : String
  opType : OpType
  dependsOn : List String := []
  ignoreState : Bool := false
  priority : JobPriority := .high
  hasDefer : Bool := false
deriving DecidableEq, Repr

/-- Modelled from the spec: the job store's enqueue-visible state — the
recorded jobs, keyed by their opaque unique IDs, assigned in order. -/
structure JobStoreState where
  jobs : List (String × JobRec) := []
  nextId : Nat := 0
deriving DecidableEq, Repr

/-- Opaque, never-empty job ID for the n-th enqueued job. -/
def jobIdString (n : Nat) : String :=
  String.mk ('j' :: Nat.toDigits 10 n)

/-- Environment for the feature's collaborators that live outside `src/`:
`os.Stat` (+ `IsDir`), the job store's possible enqueue failures (by
enqueue sequence number), and the record store's internal failure sources
(`txn.Insert`/`queueModuleChange`, also outside `src/`). -/
structure FeatureEnv where
  stat : String → Except GoErr Bool := fun _ => .ok true
  enqueueErr : Nat → Option GoErr := fun _ => none
  addInternalErr : String → Option GoErr := fun _ => none

/-- Modelled from the spec: `(*JobStore).EnqueueJob` — assigns the next
opaque ID and records the job; on failure the zero ID `""` is returned and
nothing is recorded. -/
def enqueueJob (env : FeatureEnv) (st : JobStoreState) (j : JobRec) :
    JobStoreState × String × Option GoErr :=
  match env.enqueueErr st.nextId with
  | some e => (st, "", some e)
  | none =>
    ({ jobs := st.jobs ++ [(jobIdString st.nextId, j)], nextId := st.nextId + 1 },
     jobIdString st.nextId, none)

/-- `f.store.Add` as called by the feature: the table semantics from
`src/` plus the store-internal failure sources behind the environment
knob. -/
def featureStoreAdd (env : FeatureEnv) (db : ModuleDB) (path : String) :
    ModuleDB × Option GoErr :=
  match env.addInternalErr path with
  | some e => (db, some e)
  | none => ModuleStore.Add db path

/-- `f.store.AddIfNotExists` as called by the feature. -/
def featureAddIfNotExists (env : FeatureEnv) (db : ModuleDB) (path : String) :
    ModuleDB × Option GoErr :=
  match env.addInternalErr path with
  | some e => (db, some e)
  | none => ModuleStore.AddIfNotExists db path

/-- `(*ModuleStore).DeclaredModuleCalls(modPath)`: re-keys the metadata's
module calls by local name (map semantics: a duplicate local name
overwrites). -/
def DeclaredModuleCalls (db : ModuleDB) (modPath : String) :
    Except GoErr (List (String × DeclaredModuleCall)) :=
  match ModuleStore.ModuleByPath db modPath with
  | .error e => .error e
  | .ok (_, mod) =>
    .ok (mod.meta.moduleCalls.foldl
      (fun declared mc =>
        assocUpsert declared mc.localName
          { localName := mc.localName
            sourceAddr := mc.sourceAddr
            version := mc.version
            inputNames := mc.inputNames
            rangePtr := mc.rangePtr })
      [])

/-- `(*ModulesFeature).collectReferences`: enqueues the two
reference-decoding jobs with the given `DependsOn` set, collecting enqueue
errors into a multi-error (assignments of `multierror.Append` are kept in
this function in the source). -/
def collectReferences (env : FeatureEnv) (st : JobStoreState) (dir : String)
    (dependsOn : List String) (ignoreState : Bool) :
    JobStoreState × List String × Option GoErr :=
  let ids : List String := []
  let errs : MultiError := none
  let (st1, targetsId, err1) := enqueueJob env st
    { dir := dir, opType := .opDecodeReferenceTargets,
      dependsOn := dependsOn, ignoreState := ignoreState }
  let errs := if err1.isSome then multierrorAppend errs err1 else errs
  let ids := if err1.isSome then ids else ids ++ [targetsId]
  let (st2, originsId, err2) := enqueueJob env st1
    { dir := dir, opType := .opDecodeReferenceOrigins,
      dependsOn := dependsOn, ignoreState := ignoreState }
  let errs := if err2.isSome then multierrorAppend errs err2 else errs
  let ids := if err2.isSome then ids else ids ++ [originsId]
  (st2, ids, errorOrNil errs)

/-- `(*ModulesFeature).decodeModuleAtPath`: enqueues the parse → metadata →
schema-preload chain for a child directory and then the reference
collection depending on all of them.  Every `multierror.Append(errs, err)`
in this function discards its result in the source (`errs` is never
reassigned), so the returned `errs.ErrorOrNil()` is always nil; the
embedding mirrors that literally. -/
def decodeModuleAtPath (env : FeatureEnv) (st : JobStoreState) (dir : String)
    (ignoreState : Bool) : JobStoreState × List String × Option GoErr :=
  let errs : MultiError := none
  let jobIds : List String := []
  let refCollectionDeps : List String := []
  let (st1, parseId, err1) := enqueueJob env st
    { dir := dir, opType := .opParseModuleConfiguration, ignoreState := ignoreState }
  -- if err != nil: multierror.Append(errs, err) — result discarded
  let jobIds := if err1.isSome then jobIds else jobIds ++ [parseId]
  let refCollectionDeps := if err1.isSome then refCollectionDeps
    else refCollectionDeps ++ [parseId]
  let (st3, jobIds, refCollectionDeps) :=
    if parseId ≠ "" then
      let (st2, metaId, err2) := enqueueJob env st1
        { dir := dir, opType := .opLoadModuleMetadata,
          dependsOn := [parseId], ignoreState := ignoreState }
      -- if err != nil: multierror.Append(errs, err) — result discarded
      let jobIds := if err2.isSome then jobIds else jobIds ++ [metaId]
      let refCollectionDeps := if err2.isSome then refCollectionDeps
        else refCollectionDeps ++ [metaId]
      let (st3, eSchemaId, err3) := enqueueJob env st2
        { dir := dir, opType := .opPreloadEmbeddedSchema,
          dependsOn := [metaId], ignoreState := ignoreState }
      -- if err != nil: multierror.Append(errs, err) — result discarded
      let jobIds := if err3.isSome then jobIds else jobIds ++ [eSchemaId]
      let refCollectionDeps := if err3.isSome then refCollectionDeps
        else refCollectionDeps ++ [eSchemaId]
      (st3, jobIds, refCollectionDeps)
    else
      (st1, jobIds, refCollectionDeps)
  let (st4, jobIds) :=
    if parseId ≠ "" then
      let (st4, ids, errRefs) := collectReferences env st3 dir refCollectionDeps ignoreState
      -- if err != nil: multierror.Append(errs, err) — result discarded
      let jobIds := if errRefs.isSome then jobIds else jobIds ++ ids
      (st4, jobIds)
    else
      (st3, jobIds)
  (st4, jobIds, errorOrNil errs)

/-- One iteration of the `for _, mc := range declared` loop of
`decodeDeclaredModuleCalls`: non-local sources are skipped; a failed
`os.Stat` or a non-directory skips the child (its error append is
discarded in the source); `AlreadyExistsError` from `Add` clears the
child's `IgnoreState`; any other `Add` error skips the child (append also
discarded); then the child's DAG is enqueued and its error append is
discarded as well. -/
def decodeChildStep (env : FeatureEnv) (dirPath : String) (ignoreState : Bool)
    (acc : JobStoreState × ModuleDB × List String) (mc : DeclaredModuleCall) :
    JobStoreState × ModuleDB × List String :=
  let (st, db, jobIds) := acc
  match mc.sourceAddr with
  | .remoteAddr _ => (st, db, jobIds)
  | .localAddr localSource =>
    let mcPath := filepathJoin dirPath localSource
    match env.stat mcPath with
    | .error _ =>
      -- multierror.Append(errs, err) — result discarded; continue
      (st, db, jobIds)
    | .ok isDir =>
      if ¬ isDir then
        -- multierror.Append(errs, err) — result discarded; continue
        (st, db, jobIds)
      else
        let mcIgnoreState := ignoreState
        let (db1, addErr) := featureStoreAdd env db mcPath
        match addErr with
        | some (.base (.alreadyExistsErr _)) =>
          let mcIgnoreState := false
          let (st1, mcJobIds, _mcErr) := decodeModuleAtPath env st mcPath mcIgnoreState
          -- multierror.Append(errs, mcErr) — result discarded
          (st1, db1, jobIds ++ mcJobIds)
        | some _ =>
          -- multierror.Append(errs, err) — result discarded; continue
          (st, db1, jobIds)
        | none =>
          let (st1, mcJobIds, _mcErr) := decodeModuleAtPath env st mcPath mcIgnoreState
          -- multierror.Append(errs, mcErr) — result discarded
          (st1, db1, jobIds ++ mcJobIds)

/-- `(*ModulesFeature).decodeDeclaredModuleCalls`: iterates over the
declared module calls and enqueues each local child's DAG.  `errs` is
declared, only ever passed to `multierror.Append` calls whose results are
discarded, and returned via `errs.ErrorOrNil()` — so the loop's error
result is the nil-receiver `ErrorOrNil`. -/
def decodeDeclaredModuleCalls (env : FeatureEnv) (st : JobStoreState) (db : ModuleDB)
    (dirPath : String) (ignoreState : Bool) :
    JobStoreState × ModuleDB × List String × Option GoErr :=
  match DeclaredModuleCalls db dirPath with
  | .error e => (st, db, [], some e)
  | .ok declared =>
    let errs : MultiError := none
    let (st1, db1, jobIds) :=
      (declared.map Prod.snd).foldl (decodeChildStep env dirPath ignoreState) (st, db, [])
    (st1, db1, jobIds, errorOrNil errs)

/-- The `Defer` continuation of the metadata job enqueued by `didOpen`:
decode declared module calls (logging, never propagating, their error),
then enqueue schema preload and the two reference-decoding jobs. -/
def didOpenMetaDefer (env : FeatureEnv) (st : JobStoreState) (db : ModuleDB)
    (dir : String) (_jobErr : Option GoErr) :
    JobStoreState × ModuleDB × List String × Option GoErr :=
  let deferIds : List String := []
  let (st1, db1, modCalls, _mcErr) := decodeDeclaredModuleCalls env st db dir true
  -- mcErr is logged and scheduling continues
  let (st2, eSchemaId, err1) := enqueueJob env st1
    { dir := dir, opType := .opPreloadEmbeddedSchema, ignoreState := true }
  match err1 with
  | some e => (st2, db1, deferIds, some e)
  | none =>
    let deferIds := deferIds ++ [eSchemaId]
    let (st3, refTargetsId, err2) := enqueueJob env st2
      { dir := dir, opType := .opDecodeReferenceTargets,
        dependsOn := [eSchemaId], ignoreState := true }
    match err2 with
    | some e => (st3, db1, deferIds, some e)
    | none =>
      let deferIds := deferIds ++ [refTargetsId]
      let (st4, refOriginsId, err3) := enqueueJob env st3
        { dir := dir, opType := .opDecodeReferenceOrigins,
          dependsOn := modCalls ++ [eSchemaId], ignoreState := true }
      match err3 with
      | some e => (st4, db1, deferIds, some e)
      | none => (st4, db1, deferIds ++ [refOriginsId], none)

/-- `(*ModulesFeature).didOpen`: ensure a record exists when the language
matches, bail out silently when the directory has no record, then enqueue
the parse job, the metadata job (depending on parse, carrying the `Defer`
continuation above) and the low-priority registry job (depending on
metadata, its ID deliberately not returned). -/
def didOpen (env : FeatureEnv) (st : JobStoreState) (db : ModuleDB)
    (dir : String) (languageID : String) :
    JobStoreState × ModuleDB × List String × Option GoErr :=
  let ids : List String := []
  match (if languageID = "terraform" then featureAddIfNotExists env db dir
         else (db, none)) with
  | (db0, some e) => (st, db0, ids, some e)
  | (db0, none) =>
    if ¬ ModuleStore.Exists db0 dir then
      (st, db0, ids, none)
    else
      let (st1, parseId, err1) := enqueueJob env st
        { dir := dir, opType := .opParseModuleConfiguration, ignoreState := true }
      match err1 with
      | some e => (st1, db0, ids, some e)
      | none =>
        let ids := ids ++ [parseId]
        let (st2, metaId, err2) := enqueueJob env st1
          { dir := dir, opType := .opLoadModuleMetadata,
            dependsOn := [parseId], ignoreState := true, hasDefer := true }
        match err2 with
        | some e => (st2, db0, ids, some e)
        | none =>
          let ids := ids ++ [metaId]
          let (st3, _, err3) := enqueueJob env st2
            { dir := dir, opType := .opGetModuleDataFromRegistry,
              dependsOn := [metaId], priority := .low }
          match err3 with
          | some e => (st3, db0, ids, some e)
          | none => (st3, db0, ids, none)

/-!  Well-formedness predicates and concrete fixtures used by the
theorems and witnesses below. -/

/-- Every lifecycle state of a module record is `Unknown`. -/
def ModuleRecord.allStatesUnknown (r : ModuleRecord) : Prop :=
  r.providerSchemaState = .unknown ∧ r.preloadEmbeddedSchemaState = .unknown ∧
  r.refTargetsState = .unknown ∧ r.refOriginsState = .unknown ∧
  r.metaState = .unknown ∧ ∀ s, r.moduleDiagnosticsState.get s = .unknown

/-- Every lifecycle state of a stacks record is `Unknown`. -/
def StacksRecord.allStatesUnknown (r : StacksRecord) : Prop :=
  ∀ s, r.stacksDiagnosticsState.get s = .unknown

/-- Well-formedness of the heap model: every address the table points to
was allocated (is below `nextAddr`).  Holds for every store reachable by
the operations here, and is decidable on concrete stores. -/
def ModuleDB.WF (db : ModuleDB) : Prop :=
  ∀ e ∈ db.table, e.2 < db.nextAddr

instance (db : ModuleDB) : Decidable db.WF :=
  inferInstanceAs (Decidable (∀ e ∈ db.table, e.2 < db.nextAddr))

/-- A one-record store for concrete runs. -/
def dbOne : ModuleDB := ModuleDB.insertRecord {} "/m" (newModule "/m")

def filesOne : ModFiles := [("main.tf", ⟨1⟩)]

/-- A fixed parser environment for concrete runs. -/
def parseEnv0 : ParseEnv :=
  { parseModuleFiles := fun _ => (some filesOne, [], none)
    parseModuleFile := fun _ => (⟨1⟩, [], none)
    parseStacksFiles := fun _ => (some filesOne, [], none)
    pathFromURI := fun u => .ok u }

def rLoaded : ModuleRecord :=
  { newModule "/m" with moduleDiagnosticsState := { hclParsing := .loaded } }

def dbLoaded : ModuleDB := ModuleDB.insertRecord {} "/m" rLoaded

def srLoaded : StacksRecord :=
  { newStacks "/s" with stacksDiagnosticsState := { hclParsing := .loaded } }

def sdbLoaded : StacksDB := { table := [("/s", srLoaded)] }

def sdbOne : StacksDB := { table := [("/s", newStacks "/s")] }

/-- Two subscribers, the first of which then unsubscribes. -/
def topicA : Topic Nat :=
  ((Topic.new.subscribe).1.subscribe).1.unsubscribe 0

instance {T : Type} (t : Topic T) : Decidable t.WF :=
  inferInstanceAs (Decidable ((t.channels.map Prod.fst).Nodup ∧
    (∀ c ∈ t.channels.map Prod.fst, c < t.nextChan) ∧
    (∀ s ∈ t.subscribers, s ∈ t.channels.map Prod.fst) ∧
    t.subscribers.Nodup))

/-- A record whose single local module call, through path aliasing in the
table, produces an unbounded call chain — the depth guard cuts it off. -/
def recA : ModuleRecord :=
  { newModule "/a" with meta := { moduleCalls := [⟨"x", .localAddr "x", [], [], none⟩] } }

def dbCyc : ModuleDB :=
  { heap := [(0, recA)], nextAddr := 1,
    table := [("/a", 0), ("/a/x", 0), ("/a/x/x", 0), ("/a/x/x/x", 0)],
    maxModuleNesting := 2 }

def mcForA : DeclaredModuleCall := ⟨"a", .localAddr "a", [], [], none⟩

def dbC9 : ModuleDB := ModuleDB.insertRecord {} "/p/a" (newModule "/p/a")

def envFailAdd : FeatureEnv :=
  { addInternalErr := fun _ => some (.base (.otherErr "insert failed")) }

/-- A parent module declaring two local module calls, `./a` and `./b`. -/
def recParent : ModuleRecord :=
  { newModule "/p" with meta :=
      { moduleCalls :=
          [⟨"a", .localAddr "a", [], [], none⟩, ⟨"b", .localAddr "b", [], [], none⟩] } }

def dbParent : ModuleDB :=
  { heap := [(0, recParent)], nextAddr := 1, table := [("/p", 0)] }

/-- `os.Stat` fails for the first child only. -/
def envStatFailA : FeatureEnv :=
  { stat := fun p =>
      if p = "/p/a" then .error (.base (.otherErr "lstat ./a: no such file or directory"))
      else .ok true }

/-!  Basic lemmas about the embedding. -/

@[simp]
theorem assocFind_upsert_self {α β : Type} [DecidableEq α]
    (l : List (α × β)) (k : α) (v : β) : assocFind (assocUpsert l k v) k = some v := by
  induction l with
  | nil => simp [assocFind, assocUpsert]
  | cons hd tl ih =>
    obtain ⟨k', v'⟩ := hd
    by_cases h : k' = k <;> simp [assocFind, assocUpsert, h, ih]

theorem assocFind_upsert_ne {α β : Type} [DecidableEq α]
    (l : List (α × β)) (k k' : α) (v : β) (h : k ≠ k') :
    assocFind (assocUpsert l k v) k' = assocFind l k' := by
  induction l with
  | nil => simp [assocFind, assocUpsert, h]
  | cons hd tl ih =>
    obtain ⟨k'', v''⟩ := hd
    by_cases h2 : k'' = k
    · subst h2; simp [assocFind, assocUpsert, h]
    · simp [assocFind, assocUpsert, h2, ih]

@[simp]
theorem ModuleMetadata.metadataCopy_eq (m : ModuleMetadata) : m.Copy = m := rfl

@[simp]
theorem ModuleRecord.recordCopy_eq (m : ModuleRecord) : m.Copy = m := rfl

@[simp]
theorem ModuleDB.recordAt_insertRecord_self (db : ModuleDB) (p : String) (r : ModuleRecord) :
    (db.insertRecord p r).recordAt p = some r := by
  simp [ModuleDB.insertRecord, ModuleDB.recordAt, ModuleDB.alloc, ModuleDB.tableGet,
    ModuleDB.heapGet, assocFind]

theorem ModuleStore.moduleByPath_of_recordAt {db : ModuleDB} {p : String} {r : ModuleRecord}
    (h : db.recordAt p = some r) :
    ∃ a, db.tableGet p = some a ∧ db.heapGet a = some r ∧
      ModuleStore.moduleByPath db p = .ok (a, r) := by
  unfold ModuleDB.recordAt at h
  unfold ModuleStore.moduleByPath
  cases htab : db.tableGet p with
  | none => rw [htab] at h; exact absurd h (by simp)
  | some a =>
    rw [htab] at h
    simp only at h
    exact ⟨a, rfl, h, by simp [h]⟩

/-- The shared update skeleton, evaluated on an existing record. -/
theorem ModuleStore.updateWith_of_recordAt {db : ModuleDB} {p : String} {r : ModuleRecord}
    (f : ModuleRecord → ModuleRecord) (h : db.recordAt p = some r) :
    ModuleStore.updateWith db p f = (db.insertRecord p (f r), none) := by
  obtain ⟨a, _, _, hbp⟩ := ModuleStore.moduleByPath_of_recordAt h
  unfold ModuleStore.updateWith
  rw [hbp]
  simp

theorem enqueueJob_ok {env : FeatureEnv} {st : JobStoreState} (j : JobRec)
    (h : env.enqueueErr st.nextId = none) :
    enqueueJob env st j =
      ({ jobs := st.jobs ++ [(jobIdString st.nextId, j)], nextId := st.nextId + 1 },
       jobIdString st.nextId, none) := by
  unfold enqueueJob
  rw [h]

theorem jobIdString_ne_empty (n : Nat) : jobIdString n ≠ "" := by
  intro h
  rw [jobIdString, String.ext_iff] at h
  simp at h

/-!  C10 — a `didOpen` for an irrelevant language on an untracked
directory is silently ignored. -/

/-- C10: for every `didOpen` call on the modules feature where the
language ID is not "terraform" and no module record exists for the
directory, the handler enqueues no jobs and returns an empty job-ID list
with a nil error. -/
theorem didOpen_irrelevant_is_noop (env : FeatureEnv) (st : JobStoreState) (db : ModuleDB)
    (dir languageID : String) (hLang : languageID ≠ "terraform")
    (hNoRec : db.tableGet dir = none) :
    didOpen env st db dir languageID = (st, db, [], none) := by
  unfold didOpen
  rw [if_neg hLang]
  have hEx : ModuleStore.Exists db dir = false := by
    simp [ModuleStore.Exists, hNoRec]
  simp [hEx]

theorem didOpen_irrelevant_is_noop_witness :
    "terraform-vars" ≠ "terraform" ∧
      (({} : ModuleDB).tableGet "/m" = none) ∧
      didOpen {} {} {} "/m" "terraform-vars" = ({}, {}, [], none) :=
  ⟨by decide, by decide,
    didOpen_irrelevant_is_noop {} {} {} "/m" "terraform-vars" (by decide) (by decide)⟩

/-!  C8 — `Add` on the record stores: fresh empty record with all states
Unknown, or `AlreadyExistsError` leaving the table unchanged. -/

/-- C8: `Add(path)` inserts a new empty record whose field states are all
`Unknown` when no record exists for that path, and fails with
`AlreadyExistsError`, leaving the table unchanged, when a record for that
path already exists — for the module store and the stacks store alike. -/
theorem recordStore_Add_spec :
    (∀ (db : ModuleDB) (path : String), db.tableGet path = none →
      ModuleStore.Add db path = (db.insertRecord path (newModule path), none) ∧
      (db.insertRecord path (newModule path)).recordAt path = some (newModule path) ∧
      (newModule path).allStatesUnknown) ∧
    (∀ (db : ModuleDB) (path : String) (a : Nat), db.tableGet path = some a →
      ModuleStore.Add db path = (db, some (.base (.alreadyExistsErr path)))) ∧
    (∀ (db : StacksDB) (path : String), StacksStore.recordAt db path = none →
      StacksStore.Add db path = ({ table := assocUpsert db.table path (newStacks path) }, none) ∧
      StacksStore.recordAt { table := assocUpsert db.table path (newStacks path) } path =
        some (newStacks path) ∧
      (newStacks path).allStatesUnknown) ∧
    (∀ (db : StacksDB) (path : String) (r : StacksRecord),
      StacksStore.recordAt db path = some r →
      StacksStore.Add db path = (db, some (.base (.alreadyExistsErr path)))) := by
  refine ⟨?_, ?_, ?_, ?_⟩
  · intro db path h
    refine ⟨?_, by simp, ?_⟩
    · unfold ModuleStore.Add
      rw [h]
    · refine ⟨rfl, rfl, rfl, rfl, rfl, ?_⟩
      intro s; cases s <;> rfl
  · intro db path a h
    unfold ModuleStore.Add
    rw [h]
  · intro db path h
    refine ⟨?_, ?_, ?_⟩
    · unfold StacksStore.Add
      rw [h]
    · simp [StacksStore.recordAt]
    · intro s; cases s <;> rfl
  · intro db path r h
    unfold StacksStore.Add
    rw [h]

theorem recordStore_Add_spec_witness :
    (({} : ModuleDB).tableGet "/m" = none ∧
      ModuleStore.Add {} "/m" =
        (ModuleDB.insertRecord {} "/m" (newModule "/m"), none)) ∧
    ((ModuleDB.insertRecord {} "/m" (newModule "/m")).tableGet "/m" = some 0 ∧
      ModuleStore.Add (ModuleDB.insertRecord {} "/m" (newModule "/m")) "/m" =
        (ModuleDB.insertRecord {} "/m" (newModule "/m"),
         some (.base (.alreadyExistsErr "/m")))) ∧
    (StacksStore.Add {} "/s" = ({ table := [("/s", newStacks "/s")] }, none)) ∧
    (StacksStore.Add { table := [("/s", newStacks "/s")] } "/s" =
      ({ table := [("/s", newStacks "/s")] }, some (.base (.alreadyExistsErr "/s")))) :=
  ⟨⟨by decide, (recordStore_Add_spec.1 {} "/m" (by decide)).1⟩,
   ⟨by decide,
    recordStore_Add_spec.2.1 (ModuleDB.insertRecord {} "/m" (newModule "/m")) "/m" 0
      (by decide)⟩,
   (recordStore_Add_spec.2.2.1 {} "/s" (by decide)).1,
   recordStore_Add_spec.2.2.2 { table := [("/s", newStacks "/s")] } "/s" (newStacks "/s")
     (by decide)⟩

/-!  C3 — copy-on-write isolation for readers of the module store. -/

theorem assocFind_mem {α β : Type} [DecidableEq α] {l : List (α × β)} {k : α} {v : β}
    (h : assocFind l k = some v) : (k, v) ∈ l := by
  induction l with
  | nil => simp [assocFind] at h
  | cons hd tl ih =>
    obtain ⟨k', v'⟩ := hd
    by_cases h2 : k' = k
    · subst h2
      simp [assocFind] at h
      simp [h]
    · simp [assocFind, h2] at h
      exact List.mem_cons_of_mem _ (ih h)

theorem ModuleDB.tableGet_lt_nextAddr {db : ModuleDB} {p : String} {a : Nat}
    (hWF : db.WF) (h : db.tableGet p = some a) : a < db.nextAddr :=
  hWF (p, a) (assocFind_mem h)

theorem ModuleDB.heapGet_insertRecord_lt {db : ModuleDB} {p : String} {r : ModuleRecord}
    {a : Nat} (h : a < db.nextAddr) :
    (db.insertRecord p r).heapGet a = db.heapGet a := by
  have hne : db.nextAddr ≠ a := Nat.ne_of_gt h
  simp [ModuleDB.insertRecord, ModuleDB.heapGet, ModuleDB.alloc, assocFind, hne]

theorem ModuleDB.nextAddr_insertRecord (db : ModuleDB) (p : String) (r : ModuleRecord) :
    (db.insertRecord p r).nextAddr = db.nextAddr + 1 := rfl

theorem ModuleStore.moduleByPath_ok_elim {db : ModuleDB} {p : String} {a : Nat}
    {r : ModuleRecord} (h : ModuleStore.moduleByPath db p = .ok (a, r)) :
    db.tableGet p = some a ∧ db.heapGet a = some r := by
  unfold ModuleStore.moduleByPath at h
  cases htab : db.tableGet p with
  | none => rw [htab] at h; simp at h
  | some a' =>
    rw [htab] at h
    simp only at h
    cases hh : db.heapGet a' with
    | none => rw [hh] at h; simp at h
    | some r' =>
      rw [hh] at h
      simp only [Except.ok.injEq, Prod.mk.injEq] at h
      obtain ⟨ha, hr⟩ := h
      subst ha; subst hr
      exact ⟨rfl, hh⟩

/-- A reader-held address below `nextAddr` survives `updateWith`
untouched, and `nextAddr` never decreases. -/
theorem ModuleStore.heapGet_updateWith_lt {db : ModuleDB} {p : String}
    {f : ModuleRecord → ModuleRecord} {a : Nat} (h : a < db.nextAddr) :
    ((ModuleStore.updateWith db p f).1).heapGet a = db.heapGet a ∧
      db.nextAddr ≤ ((ModuleStore.updateWith db p f).1).nextAddr := by
  unfold ModuleStore.updateWith
  cases hbp : ModuleStore.moduleByPath db p with
  | error e => simp
  | ok ar =>
    obtain ⟨a', r'⟩ := ar
    simp only
    exact ⟨ModuleDB.heapGet_insertRecord_lt h, Nat.le_succ _⟩

/-- C3: record-store updates are copy-on-write — a reader that obtained a
record pointer (address) before the update still reads the full pre-update
record afterwards, both through the shared `Set*`/`Update*` skeleton
(`updateWith`) and through `UpdateMetadata` (main write plus its deferred
`SetMetaState`). -/
theorem copyOnWrite_no_torn_reads :
    (∀ (db : ModuleDB) (p readerPath : String) (f : ModuleRecord → ModuleRecord)
       (a : Nat) (r : ModuleRecord),
       db.WF → ModuleStore.ModuleByPath db readerPath = .ok (a, r) →
       ((ModuleStore.updateWith db p f).1).heapGet a = some r) ∧
    (∀ (db : ModuleDB) (p readerPath : String) (meta : Meta) (mErr : Option GoErr)
       (a : Nat) (r : ModuleRecord),
       db.WF → ModuleStore.ModuleByPath db readerPath = .ok (a, r) →
       ((ModuleStore.UpdateMetadata db p meta mErr).1).heapGet a = some r) := by
  constructor
  · intro db p readerPath f a r hWF hRead
    obtain ⟨htab, hheap⟩ := ModuleStore.moduleByPath_ok_elim hRead
    have ha : a < db.nextAddr := ModuleDB.tableGet_lt_nextAddr hWF htab
    rw [(ModuleStore.heapGet_updateWith_lt ha).1]
    exact hheap
  · intro db p readerPath meta mErr a r hWF hRead
    obtain ⟨htab, hheap⟩ := ModuleStore.moduleByPath_ok_elim hRead
    have ha : a < db.nextAddr := ModuleDB.tableGet_lt_nextAddr hWF htab
    unfold ModuleStore.UpdateMetadata
    rcases hu : ModuleStore.updateWith db p
        (fun mod => { mod with meta := ModuleMetadata.ofMeta meta, metaErr := mErr })
      with ⟨db1, e1⟩
    have h1 : db1.heapGet a = db.heapGet a := by
      have hx := (ModuleStore.heapGet_updateWith_lt (p := p)
        (f := fun mod => { mod with meta := ModuleMetadata.ofMeta meta, metaErr := mErr })
        ha).1
      rw [hu] at hx
      exact hx
    have h2 : db.nextAddr ≤ db1.nextAddr := by
      have hx := (ModuleStore.heapGet_updateWith_lt (p := p)
        (f := fun mod => { mod with meta := ModuleMetadata.ofMeta meta, metaErr := mErr })
        ha).2
      rw [hu] at hx
      exact hx
    cases e1 with
    | some e =>
      simp only [ModuleStore.andThenSet]
      rw [h1]
      exact hheap
    | none =>
      simp only [ModuleStore.andThenSet, ModuleStore.SetMetaState]
      rw [(ModuleStore.heapGet_updateWith_lt (by omega : a < db1.nextAddr)).1, h1]
      exact hheap

theorem copyOnWrite_no_torn_reads_witness :
    dbOne.WF ∧
      ModuleStore.ModuleByPath dbOne "/m" = .ok (0, newModule "/m") ∧
      ((ModuleStore.UpdateMetadata dbOne "/m"
          { moduleCalls := [⟨"x", .localAddr "x", [], [], none⟩] } none).1).heapGet 0 =
        some (newModule "/m") :=
  ⟨by decide, by rfl,
    copyOnWrite_no_torn_reads.2 dbOne "/m" "/m"
      { moduleCalls := [⟨"x", .localAddr "x", [], [], none⟩] } none 0 (newModule "/m")
      (by decide) (by rfl)⟩

/-!  C4 — what the `Update<Field>` operations actually store.  Three of the
four cited operations advance their field's state to `Loaded` via the
deferred `Set*State`; `UpdateParsedModuleFiles` stores data + error but
touches no state at all (the parsing state is advanced separately by
`UpdateModuleDiagnostics`), which refutes the claim as stated. -/

/-- C4 counterexample: on a fresh record, a successful
`UpdateParsedModuleFiles` stores the given data and error, but every
lifecycle state of the stored record is still `Unknown` — no field's state
was advanced to `Loaded`, contradicting the claim for this operation. -/
theorem updateParsedModuleFiles_no_state_advance :
    (ModuleStore.UpdateParsedModuleFiles dbOne "/m" (some filesOne) none).2 = none ∧
    (ModuleStore.UpdateParsedModuleFiles dbOne "/m" (some filesOne) none).1.recordAt "/m" =
      some { newModule "/m" with parsedModuleFiles := some filesOne } ∧
    ModuleRecord.allStatesUnknown
      { newModule "/m" with parsedModuleFiles := some filesOne } :=
  ⟨by rfl, by rfl, rfl, rfl, rfl, rfl, rfl, fun s => by cases s <;> rfl⟩

/-- C4 (amended): for `UpdateMetadata`, `UpdateReferenceTargets` and
`UpdateReferenceOrigins`, a nil-returning run leaves the stored record
holding the given data and the given error (including a non-nil error)
with that field's state advanced to `Loaded`; `UpdateParsedModuleFiles`
stores the given data and error but changes no state field (its record is
the old one with only the two data fields replaced). -/
theorem updateField_stores_data_and_state :
    (∀ (db : ModuleDB) (path : String) (meta : Meta) (mErr : Option GoErr)
       (r0 : ModuleRecord), db.recordAt path = some r0 →
       ∃ db', ModuleStore.UpdateMetadata db path meta mErr = (db', none) ∧
         db'.recordAt path = some { r0 with
           meta := ModuleMetadata.ofMeta meta, metaErr := mErr, metaState := .loaded }) ∧
    (∀ (db : ModuleDB) (path : String) (refs : List RefTarget) (rErr : Option GoErr)
       (r0 : ModuleRecord), db.recordAt path = some r0 →
       ∃ db', ModuleStore.UpdateReferenceTargets db path refs rErr = (db', none) ∧
         db'.recordAt path = some { r0 with
           refTargets := refs, refTargetsErr := rErr, refTargetsState := .loaded }) ∧
    (∀ (db : ModuleDB) (path : String) (origins : List RefOrigin) (roErr : Option GoErr)
       (r0 : ModuleRecord), db.recordAt path = some r0 →
       ∃ db', ModuleStore.UpdateReferenceOrigins db path origins roErr = (db', none) ∧
         db'.recordAt path = some { r0 with
           refOrigins := origins, refOriginsErr := roErr, refOriginsState := .loaded }) ∧
    (∀ (db : ModuleDB) (path : String) (pFiles : Option ModFiles) (pErr : Option GoErr)
       (r0 : ModuleRecord), db.recordAt path = some r0 →
       ∃ db', ModuleStore.UpdateParsedModuleFiles db path pFiles pErr = (db', none) ∧
         db'.recordAt path = some { r0 with
           parsedModuleFiles := pFiles, moduleParsingErr := pErr }) := by
  refine ⟨?_, ?_, ?_, ?_⟩
  · intro db path meta mErr r0 h
    unfold ModuleStore.UpdateMetadata
    rw [ModuleStore.updateWith_of_recordAt _ h]
    simp only [ModuleStore.andThenSet, ModuleStore.SetMetaState]
    rw [ModuleStore.updateWith_of_recordAt _ (ModuleDB.recordAt_insertRecord_self ..)]
    exact ⟨_, rfl, by simp⟩
  · intro db path refs rErr r0 h
    unfold ModuleStore.UpdateReferenceTargets
    rw [ModuleStore.updateWith_of_recordAt _ h]
    simp only [ModuleStore.andThenSet, ModuleStore.SetReferenceTargetsState]
    rw [ModuleStore.updateWith_of_recordAt _ (ModuleDB.recordAt_insertRecord_self ..)]
    exact ⟨_, rfl, by simp⟩
  · intro db path origins roErr r0 h
    unfold ModuleStore.UpdateReferenceOrigins
    rw [ModuleStore.updateWith_of_recordAt _ h]
    simp only [ModuleStore.andThenSet, ModuleStore.SetReferenceOriginsState]
    rw [ModuleStore.updateWith_of_recordAt _ (ModuleDB.recordAt_insertRecord_self ..)]
    exact ⟨_, rfl, by simp⟩
  · intro db path pFiles pErr r0 h
    unfold ModuleStore.UpdateParsedModuleFiles
    rw [ModuleStore.updateWith_of_recordAt _ h]
    exact ⟨_, rfl, by simp⟩

theorem updateField_stores_data_and_state_witness :
    dbOne.recordAt "/m" = some (newModule "/m") ∧
    (∃ db', ModuleStore.UpdateMetadata dbOne "/m" {} (some (.base (.otherErr "meta failed")))
        = (db', none) ∧
      db'.recordAt "/m" = some { newModule "/m" with
        meta := ModuleMetadata.ofMeta {}, metaErr := some (.base (.otherErr "meta failed")),
        metaState := .loaded }) ∧
    (∃ db', ModuleStore.UpdateReferenceTargets dbOne "/m" [⟨7⟩] none = (db', none) ∧
      db'.recordAt "/m" = some { newModule "/m" with
        refTargets := [⟨7⟩], refTargetsErr := none, refTargetsState := .loaded }) ∧
    (∃ db', ModuleStore.UpdateReferenceOrigins dbOne "/m" [⟨8⟩] none = (db', none) ∧
      db'.recordAt "/m" = some { newModule "/m" with
        refOrigins := [⟨8⟩], refOriginsErr := none, refOriginsState := .loaded }) ∧
    (∃ db', ModuleStore.UpdateParsedModuleFiles dbOne "/m" (some filesOne) none
        = (db', none) ∧
      db'.recordAt "/m" = some { newModule "/m" with
        parsedModuleFiles := some filesOne, moduleParsingErr := none }) :=
  ⟨by rfl,
   updateField_stores_data_and_state.1 dbOne "/m" {}
     (some (.base (.otherErr "meta failed"))) (newModule "/m") (by rfl),
   updateField_stores_data_and_state.2.1 dbOne "/m" [⟨7⟩] none (newModule "/m") (by rfl),
   updateField_stores_data_and_state.2.2.1 dbOne "/m" [⟨8⟩] none (newModule "/m") (by rfl),
   updateField_stores_data_and_state.2.2.2 dbOne "/m" (some filesOne) none
     (newModule "/m") (by rfl)⟩

/-!  C2 — the state-skip rule of the parse jobs. -/

theorem ModuleStore.SetModuleDiagnosticsState_of_recordAt {db : ModuleDB} {p : String}
    {r : ModuleRecord} (source : DiagnosticSource) (st : OpState)
    (h : db.recordAt p = some r) :
    ModuleStore.SetModuleDiagnosticsState db p source st =
      (db.insertRecord p
        { r with moduleDiagnosticsState := r.moduleDiagnosticsState.set source st },
       none) := by
  unfold ModuleStore.SetModuleDiagnosticsState
  rw [ModuleStore.updateWith_of_recordAt _ h]

theorem ModuleStore.UpdateParsedModuleFiles_of_recordAt {db : ModuleDB} {p : String}
    {r : ModuleRecord} (files : Option ModFiles) (pErr : Option GoErr)
    (h : db.recordAt p = some r) :
    ModuleStore.UpdateParsedModuleFiles db p files pErr =
      (db.insertRecord p { r with parsedModuleFiles := files, moduleParsingErr := pErr },
       none) := by
  unfold ModuleStore.UpdateParsedModuleFiles
  rw [ModuleStore.updateWith_of_recordAt _ h]

theorem ModuleStore.UpdateModuleDiagnostics_of_recordAt {db : ModuleDB} {p : String}
    {r : ModuleRecord} (source : DiagnosticSource) (diags : ModDiags)
    (h : db.recordAt p = some r) :
    ModuleStore.UpdateModuleDiagnostics db p source diags =
      (ModuleDB.insertRecord
        (db.insertRecord p
          { r with moduleDiagnostics := some (assocUpsert (r.moduleDiagnostics.getD []) source diags) })
        p
        { r with
          moduleDiagnostics := some (assocUpsert (r.moduleDiagnostics.getD []) source diags),
          moduleDiagnosticsState := r.moduleDiagnosticsState.set source .loaded },
       none) := by
  unfold ModuleStore.UpdateModuleDiagnostics
  rw [ModuleStore.updateWith_of_recordAt _ h]
  simp only [ModuleStore.andThenSet]
  rw [ModuleStore.SetModuleDiagnosticsState_of_recordAt source .loaded
    (ModuleDB.recordAt_insertRecord_self ..)]

/-- The tail shared by both parse branches stores the files, the
diagnostics, and advances the parsing state to `Loaded`. -/
theorem parseTail_spec {db : ModuleDB} {path : String} {r : ModuleRecord}
    (files : Option ModFiles) (diags : ModDiags) (h : db.recordAt path = some r) :
    ∃ db' r',
      ParseModuleConfiguration.parseModuleConfigurationTail db path files diags =
        (db', none) ∧
      db'.recordAt path = some r' ∧
      r'.moduleDiagnosticsState.hclParsing = .loaded ∧
      r'.parsedModuleFiles = files ∧ r'.moduleParsingErr = none := by
  unfold ParseModuleConfiguration.parseModuleConfigurationTail
  rw [ModuleStore.UpdateParsedModuleFiles_of_recordAt files none h]
  simp only
  rw [ModuleStore.UpdateModuleDiagnostics_of_recordAt .hclParsingSource diags
    (ModuleDB.recordAt_insertRecord_self ..)]
  exact ⟨_, _, rfl, ModuleDB.recordAt_insertRecord_self .., rfl, rfl, rfl⟩

/-- Any run of `ParseModuleConfiguration` on an existing record leaves the
parsing state non-`Unknown`: a skipped run required it already, and every
other path sets `Loading` first (and `Loaded` on success). -/
theorem parseModule_state_nonUnknown (env : ParseEnv) (ctx : JobCtx) {db : ModuleDB}
    {path : String} {r : ModuleRecord} (h : db.recordAt path = some r) :
    ∃ r', (ParseModuleConfiguration env ctx db path).1.recordAt path = some r' ∧
      r'.moduleDiagnosticsState.hclParsing ≠ .unknown := by
  obtain ⟨a, _, _, hbp⟩ := ModuleStore.moduleByPath_of_recordAt h
  unfold ParseModuleConfiguration ModuleStore.ModuleByPath
  rw [hbp]
  simp only
  by_cases hskip : r.moduleDiagnosticsState.hclParsing ≠ .unknown ∧ ¬ ctx.ignoreState
  · rw [if_pos hskip]
    exact ⟨r, h, hskip.1⟩
  · rw [if_neg hskip]
    by_cases hbr : r.moduleDiagnosticsState.hclParsing = .loaded ∧ ctx.isDidChangeRequest
        ∧ ctx.languageID = "terraform"
    · rw [if_pos hbr]
      rw [ModuleStore.SetModuleDiagnosticsState_of_recordAt .hclParsingSource .loading h]
      simp only
      cases hpu : env.pathFromURI ctx.uri with
      | error e =>
        exact ⟨{ r with moduleDiagnosticsState :=
            r.moduleDiagnosticsState.set .hclParsingSource .loading },
          ModuleDB.recordAt_insertRecord_self .., by simp [DiagnosticSourceState.set]⟩
      | ok filePath =>
        simp only
        rcases hpf : env.parseModuleFile filePath with ⟨f, fDiags, fErr⟩
        cases fErr with
        | some e =>
          exact ⟨{ r with moduleDiagnosticsState :=
            r.moduleDiagnosticsState.set .hclParsingSource .loading },
          ModuleDB.recordAt_insertRecord_self .., by simp [DiagnosticSourceState.set]⟩
        | none =>
          simp only
          obtain ⟨db', r', heq, hrec, hst, _, _⟩ :=
            parseTail_spec (r := { r with moduleDiagnosticsState :=
                r.moduleDiagnosticsState.set .hclParsingSource .loading })
              (some (assocUpsert (r.parsedModuleFiles.getD []) (goFilepathBase filePath) f))
              (assocUpsert
                (match assocFind (r.moduleDiagnostics.getD []) .hclParsingSource with
                 | none => ([] : ModDiags)
                 | some d => d)
                (goFilepathBase filePath) fDiags)
              (ModuleDB.recordAt_insertRecord_self ..)
          rw [heq]
          exact ⟨r', hrec, by rw [hst]; simp⟩
    · rw [if_neg hbr]
      rw [ModuleStore.SetModuleDiagnosticsState_of_recordAt .hclParsingSource .loading h]
      simp only
      rcases hpf : env.parseModuleFiles path with ⟨files, diags, fErr⟩
      cases fErr with
      | some e =>
        exact ⟨{ r with moduleDiagnosticsState :=
            r.moduleDiagnosticsState.set .hclParsingSource .loading },
          ModuleDB.recordAt_insertRecord_self .., by simp [DiagnosticSourceState.set]⟩
      | none =>
        simp only
        obtain ⟨db', r', heq, hrec, hst, _, _⟩ :=
          parseTail_spec (r := { r with moduleDiagnosticsState :=
              r.moduleDiagnosticsState.set .hclParsingSource .loading })
            files diags (ModuleDB.recordAt_insertRecord_self ..)
        rw [heq]
        exact ⟨r', hrec, by rw [hst]; simp⟩

/-- A run whose target state is already non-`Unknown` under
`IgnoreState=false` returns the distinguished signal and leaves the store
untouched. -/
theorem parseModule_skip (env : ParseEnv) (ctx : JobCtx) {db : ModuleDB} {path : String}
    {r : ModuleRecord} (h : db.recordAt path = some r)
    (hSt : r.moduleDiagnosticsState.hclParsing ≠ .unknown) (hIg : ctx.ignoreState = false) :
    ParseModuleConfiguration env ctx db path =
      (db, some (.base (.stateNotChangedErr path))) := by
  obtain ⟨a, _, _, hbp⟩ := ModuleStore.moduleByPath_of_recordAt h
  unfold ParseModuleConfiguration ModuleStore.ModuleByPath
  rw [hbp]
  simp [hSt, hIg]

theorem StacksStore.SetStacksDiagnosticsState_of_recordAt {db : StacksDB} {p : String}
    {r : StacksRecord} (source : DiagnosticSource) (st : OpState)
    (h : StacksStore.recordAt db p = some r) :
    StacksStore.SetStacksDiagnosticsState db p source st =
      ({ table := assocUpsert db.table p
          { path := r.path,
            stacksDiagnosticsState := r.stacksDiagnosticsState.set source st } },
       none) := by
  unfold StacksStore.SetStacksDiagnosticsState StacksStore.stacksByPath
  rw [h]
  rfl

theorem StacksStore.UpdateParsedStacksFiles_of_recordAt {db : StacksDB} {p : String}
    {r : StacksRecord} (files : Option ModFiles) (pErr : Option GoErr)
    (h : StacksStore.recordAt db p = some r) :
    StacksStore.UpdateParsedStacksFiles db p files pErr =
      ({ table := assocUpsert db.table p
          { path := r.path, parsedStacksFiles := files, stacksParsingErr := pErr,
            stacksDiagnosticsState := r.stacksDiagnosticsState } },
       none) := by
  unfold StacksStore.UpdateParsedStacksFiles StacksStore.stacksByPath
  rw [h]
  rfl

theorem parseStack_skip (env : ParseEnv) (ctx : JobCtx) {db : StacksDB} {path : String}
    {r : StacksRecord} (h : StacksStore.recordAt db path = some r)
    (hSt : r.stacksDiagnosticsState.hclParsing ≠ .unknown) (hIg : ctx.ignoreState = false) :
    ParseStack env ctx db path = (db, some (.base (.stateNotChangedErr path))) := by
  unfold ParseStack StacksStore.StacksRecordByPath StacksStore.stacksByPath
  rw [h]
  simp [hSt, hIg]

/-- Any run of `ParseStack` on an existing record leaves the parsing state
non-`Unknown`. -/
theorem parseStack_state_nonUnknown (env : ParseEnv) (ctx : JobCtx) {db : StacksDB}
    {path : String} {r : StacksRecord} (h : StacksStore.recordAt db path = some r) :
    ∃ r', StacksStore.recordAt (ParseStack env ctx db path).1 path = some r' ∧
      r'.stacksDiagnosticsState.hclParsing ≠ .unknown := by
  unfold ParseStack StacksStore.StacksRecordByPath StacksStore.stacksByPath
  rw [h]
  simp only
  by_cases hskip : r.stacksDiagnosticsState.hclParsing ≠ .unknown ∧ ¬ ctx.ignoreState
  · rw [if_pos hskip]
    exact ⟨r, h, hskip.1⟩
  · rw [if_neg hskip]
    by_cases hbr : r.stacksDiagnosticsState.hclParsing = .loaded ∧ ctx.isDidChangeRequest
        ∧ ctx.languageID = "terraform-stacks"
    · rw [if_pos hbr]
      unfold ParseStack.parseStackTail
      rw [StacksStore.UpdateParsedStacksFiles_of_recordAt none none h]
      refine ⟨{ path := r.path,
                parsedStacksFiles := none,
                stacksParsingErr := none,
                stacksDiagnosticsState := r.stacksDiagnosticsState },
        by simp [StacksStore.recordAt], ?_⟩
      rw [hbr.1]
      simp
    · rw [if_neg hbr]
      rw [StacksStore.SetStacksDiagnosticsState_of_recordAt .hclParsingSource .loading h]
      simp only
      rcases hpf : env.parseStacksFiles path with ⟨files, diags, fErr⟩
      cases fErr with
      | some e =>
        exact ⟨{ path := r.path,
                 stacksDiagnosticsState :=
                   r.stacksDiagnosticsState.set .hclParsingSource .loading },
          by simp [StacksStore.recordAt], by simp [DiagnosticSourceState.set]⟩
      | none =>
        simp only
        unfold ParseStack.parseStackTail
        rw [StacksStore.UpdateParsedStacksFiles_of_recordAt
          (r := { path := r.path,
                  stacksDiagnosticsState :=
                    r.stacksDiagnosticsState.set .hclParsingSource .loading })
          files none (by simp [StacksStore.recordAt])]
        exact ⟨{ path := r.path,
                 parsedStacksFiles := files,
                 stacksParsingErr := none,
                 stacksDiagnosticsState :=
                   r.stacksDiagnosticsState.set .hclParsingSource .loading },
          by simp [StacksStore.recordAt], by simp [DiagnosticSourceState.set]⟩

/-- C2: a parse job (`ParseModuleConfiguration`, `ParseStack`) whose
record state is already non-`Unknown` under `IgnoreState=false` returns
`StateNotChangedErr` without parsing and without mutating the record; and
after any run on an existing record, a second run with `IgnoreState=false`
returns the signal and changes nothing — the job executes at most once. -/
theorem parseJob_state_skip :
    (∀ (env : ParseEnv) (ctx : JobCtx) (db : ModuleDB) (path : String) (r : ModuleRecord),
      db.recordAt path = some r →
      r.moduleDiagnosticsState.hclParsing ≠ .unknown → ctx.ignoreState = false →
      ParseModuleConfiguration env ctx db path =
        (db, some (.base (.stateNotChangedErr path)))) ∧
    (∀ (env₁ env₂ : ParseEnv) (ctx₁ ctx₂ : JobCtx) (db : ModuleDB) (path : String)
       (r : ModuleRecord), db.recordAt path = some r → ctx₂.ignoreState = false →
      ParseModuleConfiguration env₂ ctx₂ (ParseModuleConfiguration env₁ ctx₁ db path).1 path =
        ((ParseModuleConfiguration env₁ ctx₁ db path).1,
         some (.base (.stateNotChangedErr path)))) ∧
    (∀ (env : ParseEnv) (ctx : JobCtx) (db : StacksDB) (path : String) (r : StacksRecord),
      StacksStore.recordAt db path = some r →
      r.stacksDiagnosticsState.hclParsing ≠ .unknown → ctx.ignoreState = false →
      ParseStack env ctx db path = (db, some (.base (.stateNotChangedErr path)))) ∧
    (∀ (env₁ env₂ : ParseEnv) (ctx₁ ctx₂ : JobCtx) (db : StacksDB) (path : String)
       (r : StacksRecord), StacksStore.recordAt db path = some r →
      ctx₂.ignoreState = false →
      ParseStack env₂ ctx₂ (ParseStack env₁ ctx₁ db path).1 path =
        ((ParseStack env₁ ctx₁ db path).1, some (.base (.stateNotChangedErr path)))) := by
  refine ⟨?_, ?_, ?_, ?_⟩
  · intro env ctx db path r h hSt hIg
    exact parseModule_skip env ctx h hSt hIg
  · intro env₁ env₂ ctx₁ ctx₂ db path r h hIg
    obtain ⟨r1, hrec1, hst1⟩ := parseModule_state_nonUnknown env₁ ctx₁ h
    exact parseModule_skip env₂ ctx₂ hrec1 hst1 hIg
  · intro env ctx db path r h hSt hIg
    exact parseStack_skip env ctx h hSt hIg
  · intro env₁ env₂ ctx₁ ctx₂ db path r h hIg
    obtain ⟨r1, hrec1, hst1⟩ := parseStack_state_nonUnknown env₁ ctx₁ h
    exact parseStack_skip env₂ ctx₂ hrec1 hst1 hIg

theorem parseJob_state_skip_witness :
    (ParseModuleConfiguration parseEnv0 {} dbLoaded "/m" =
      (dbLoaded, some (.base (.stateNotChangedErr "/m")))) ∧
    (ParseModuleConfiguration parseEnv0 {}
        (ParseModuleConfiguration parseEnv0 { ignoreState := true } dbOne "/m").1 "/m" =
      ((ParseModuleConfiguration parseEnv0 { ignoreState := true } dbOne "/m").1,
       some (.base (.stateNotChangedErr "/m")))) ∧
    (ParseStack parseEnv0 {} sdbLoaded "/s" =
      (sdbLoaded, some (.base (.stateNotChangedErr "/s")))) ∧
    (ParseStack parseEnv0 {} (ParseStack parseEnv0 {} sdbOne "/s").1 "/s" =
      ((ParseStack parseEnv0 {} sdbOne "/s").1,
       some (.base (.stateNotChangedErr "/s")))) :=
  ⟨parseJob_state_skip.1 parseEnv0 {} dbLoaded "/m" rLoaded (by rfl) (by decide) rfl,
   parseJob_state_skip.2.1 parseEnv0 parseEnv0 { ignoreState := true } {} dbOne "/m"
     (newModule "/m") (by rfl) rfl,
   parseJob_state_skip.2.2.1 parseEnv0 {} sdbLoaded "/s" srLoaded (by rfl) (by decide) rfl,
   parseJob_state_skip.2.2.2 parseEnv0 parseEnv0 {} {} sdbOne "/s" (newStacks "/s")
     (by rfl) rfl⟩

/-!  C5 — event-bus fan-out. -/

theorem chanSend_map_fst {T : Type} (chs : List (Nat × List T)) (c : Nat) (e : T) :
    (chanSend chs c e).map Prod.fst = chs.map Prod.fst := by
  induction chs with
  | nil => rfl
  | cons hd tl ih =>
    obtain ⟨c', q⟩ := hd
    by_cases h : c' = c <;> simp [chanSend, h, ih]

theorem assocFind_chanSend_self {T : Type} (chs : List (Nat × List T)) (c : Nat) (e : T) :
    assocFind (chanSend chs c e) c = (assocFind chs c).map (fun q => q ++ [e]) := by
  induction chs with
  | nil => simp [chanSend, assocFind]
  | cons hd tl ih =>
    obtain ⟨c', q⟩ := hd
    by_cases h : c' = c <;> simp [chanSend, assocFind, h, ih]

theorem assocFind_chanSend_ne {T : Type} (chs : List (Nat × List T)) {c c' : Nat} (e : T)
    (h : c' ≠ c) : assocFind (chanSend chs c e) c' = assocFind chs c' := by
  induction chs with
  | nil => simp [chanSend, assocFind]
  | cons hd tl ih =>
    obtain ⟨c'', q⟩ := hd
    by_cases h2 : c'' = c
    · subst h2
      simp [chanSend, assocFind, Ne.symm h, ih]
    · by_cases h3 : c'' = c'
      · subst h3
        simp [chanSend, assocFind, h2]
      · simp [chanSend, assocFind, h2, h3, ih]

theorem publishChans_not_mem {T : Type} (ss : List Nat) (chs : List (Nat × List T))
    {c : Nat} (e : T) (h : c ∉ ss) :
    assocFind (ss.foldl (fun a s => chanSend a s e) chs) c = assocFind chs c := by
  induction ss generalizing chs with
  | nil => rfl
  | cons s rest ih =>
    simp only [List.mem_cons, not_or] at h
    simp only [List.foldl_cons]
    rw [ih _ h.2, assocFind_chanSend_ne _ e h.1]

theorem publishChans_mem {T : Type} (ss : List Nat) (chs : List (Nat × List T))
    {c : Nat} (e : T) (h : c ∈ ss) (hnd : ss.Nodup) :
    assocFind (ss.foldl (fun a s => chanSend a s e) chs) c =
      (assocFind chs c).map (fun q => q ++ [e]) := by
  induction ss generalizing chs with
  | nil => simp at h
  | cons s rest ih =>
    simp only [List.foldl_cons]
    rcases List.mem_cons.mp h with hc | hc
    · subst hc
      rw [publishChans_not_mem _ _ e (List.nodup_cons.mp hnd).1, assocFind_chanSend_self]
    · rw [ih _ hc (List.nodup_cons.mp hnd).2]
      by_cases hsc : c = s
      · subst hsc
        exact absurd hc (List.nodup_cons.mp hnd).1
      · rw [assocFind_chanSend_ne _ e hsc]

theorem mem_keys_find_isSome {T : Type} {l : List (Nat × List T)} {c : Nat}
    (h : c ∈ l.map Prod.fst) : ∃ q, assocFind l c = some q := by
  induction l with
  | nil => simp at h
  | cons hd tl ih =>
    obtain ⟨c', q⟩ := hd
    by_cases h2 : c' = c
    · subst h2; exact ⟨q, by simp [assocFind]⟩
    · simp only [List.map_cons, List.mem_cons] at h
      rcases h with h | h
      · exact absurd h.symm h2
      · obtain ⟨q', hq⟩ := ih h
        exact ⟨q', by simp [assocFind, h2, hq]⟩

theorem Topic.chanBuf_publish_mem {T : Type} {t : Topic T} {c : Nat} (e : T)
    (hnd : t.subscribers.Nodup) (hc : c ∈ t.subscribers) :
    (t.publish e).chanBuf c = (t.chanBuf c).map (fun q => q ++ [e]) := by
  unfold Topic.publish Topic.chanBuf
  exact publishChans_mem _ _ e hc hnd

theorem Topic.chanBuf_publish_not_mem {T : Type} {t : Topic T} {c : Nat} (e : T)
    (hc : c ∉ t.subscribers) :
    (t.publish e).chanBuf c = t.chanBuf c := by
  unfold Topic.publish Topic.chanBuf
  exact publishChans_not_mem _ _ e hc

theorem Topic.WF_publish {T : Type} {t : Topic T} (e : T) (hWF : t.WF) :
    (t.publish e).WF := by
  obtain ⟨h1, h2, h3, h4⟩ := hWF
  have hkeys : ((t.publish e).channels).map Prod.fst = (t.channels).map Prod.fst := by
    unfold Topic.publish
    simp only
    generalize t.channels = chs
    induction t.subscribers generalizing chs with
    | nil => rfl
    | cons s rest ih => simp only [List.foldl_cons]; rw [ih, chanSend_map_fst]
  refine ⟨?_, ?_, ?_, ?_⟩
  · rw [hkeys]; exact h1
  · rw [hkeys]; exact h2
  · rw [hkeys]; exact h3
  · exact h4

theorem Topic.chanBuf_publishAll_mem {T : Type} (es : List T) {t : Topic T} {c : Nat}
    (hWF : t.WF) (hc : c ∈ t.subscribers) :
    (t.publishAll es).chanBuf c = (t.chanBuf c).map (fun q => q ++ es) := by
  induction es generalizing t with
  | nil =>
    simp [Topic.publishAll]
  | cons e rest ih =>
    have h1 : (t.publishAll (e :: rest)) = ((t.publish e).publishAll rest) := rfl
    rw [h1, ih (Topic.WF_publish e hWF) hc, Topic.chanBuf_publish_mem e hWF.2.2.2 hc]
    cases t.chanBuf c <;> simp

/-- C5: `Publish(E)` with K registered subscriber channels appends exactly
one copy of E to each of those K channels (and to no channel outside the
distribution list, such as one removed by `Unsubscribe` before the
publish); over a sequence of publishes each subscriber's channel receives
the events in publish order. -/
theorem eventbus_fanout (T : Type) (t : Topic T) (e : T) (c : Nat) (hWF : t.WF) :
    (c ∈ t.subscribers →
      ∃ q, t.chanBuf c = some q ∧ (t.publish e).chanBuf c = some (q ++ [e])) ∧
    (c ∉ t.subscribers → (t.publish e).chanBuf c = t.chanBuf c) ∧
    (∀ es, c ∈ t.subscribers →
      ∃ q, t.chanBuf c = some q ∧ (t.publishAll es).chanBuf c = some (q ++ es)) ∧
    (((t.unsubscribe c).publish e).chanBuf c = t.chanBuf c) := by
  refine ⟨?_, ?_, ?_, ?_⟩
  · intro hc
    obtain ⟨q, hq⟩ := mem_keys_find_isSome (hWF.2.2.1 c hc)
    refine ⟨q, hq, ?_⟩
    rw [Topic.chanBuf_publish_mem e hWF.2.2.2 hc]
    unfold Topic.chanBuf
    rw [hq]
    rfl
  · intro hc
    exact Topic.chanBuf_publish_not_mem e hc
  · intro es hc
    obtain ⟨q, hq⟩ := mem_keys_find_isSome (hWF.2.2.1 c hc)
    refine ⟨q, hq, ?_⟩
    rw [Topic.chanBuf_publishAll_mem es hWF hc]
    unfold Topic.chanBuf
    rw [hq]
    rfl
  · have hout : c ∉ (t.unsubscribe c).subscribers := by
      unfold Topic.unsubscribe
      simp
    rw [Topic.chanBuf_publish_not_mem e hout]
    rfl

theorem eventbus_fanout_witness :
    topicA.WF ∧
    (∃ q, topicA.chanBuf 1 = some q ∧ (topicA.publish 5).chanBuf 1 = some (q ++ [5])) ∧
    ((topicA.publish 5).chanBuf 0 = topicA.chanBuf 0) ∧
    (∃ q, topicA.chanBuf 1 = some q ∧
      (topicA.publishAll [5, 7]).chanBuf 1 = some (q ++ [5, 7])) :=
  ⟨by decide,
   (eventbus_fanout Nat topicA 5 1 (by decide)).1 (by decide),
   (eventbus_fanout Nat topicA 5 0 (by decide)).2.1 (by decide),
   (eventbus_fanout Nat topicA 5 1 (by decide)).2.2.1 [5, 7] (by decide)⟩

/-!  C7 — bounded recursion of `providerRequirementsForModule`. -/

theorem providerReqsCallsLoop_isSome
    {recurse : String → Option (ProviderRequirements × Option GoErr)}
    (hrec : ∀ p, (recurse p).isSome) (modPath : String) (calls : List ModuleCall)
    (reqs : ProviderRequirements) :
    (providerReqsCallsLoop recurse modPath calls reqs).isSome := by
  induction calls generalizing reqs with
  | nil => simp [providerReqsCallsLoop]
  | cons mc rest ih =>
    unfold providerReqsCallsLoop
    cases mc.sourceAddr with
    | remoteAddr a => exact ih reqs
    | localAddr localAddr =>
      simp only
      cases hr : recurse (filepathJoin modPath localAddr) with
      | none => exact absurd hr (by have := hrec (filepathJoin modPath localAddr); simp_all)
      | some pr =>
        obtain ⟨pr', e⟩ := pr
        cases e with
        | some err => simp
        | none => exact ih _

/-- C7: the recursion of `providerRequirementsForModule` is bounded by the
nesting-level guard — `maxModuleNesting + 2 - level` stack frames always
suffice, for every store content including cyclic local module-call
graphs; a call whose level exceeds `MaxModuleNesting` returns the
"too deep module nesting" error instead of recursing; and the exported
`ProviderRequirementsForModule` therefore always terminates. -/
theorem providerRequirements_terminates :
    (∀ (fuel level : Nat) (db : ModuleDB) (modPath : String),
      db.maxModuleNesting + 2 - level ≤ fuel → 0 < fuel →
      (providerReqsFuel fuel db modPath level).isSome) ∧
    (∀ (fuel level : Nat) (db : ModuleDB) (modPath : String),
      level > db.maxModuleNesting → 0 < fuel →
      providerReqsFuel fuel db modPath level =
        some ([], some (.base (.tooDeepNesting modPath db.maxModuleNesting)))) ∧
    (∀ (db : ModuleDB) (modPath : String),
      (ProviderRequirementsForModule db modPath).isSome) := by
  have part1 : ∀ (fuel level : Nat) (db : ModuleDB) (modPath : String),
      db.maxModuleNesting + 2 - level ≤ fuel → 0 < fuel →
      (providerReqsFuel fuel db modPath level).isSome := by
    intro fuel
    induction fuel with
    | zero => intro level db modPath h1 h2; omega
    | succ f ih =>
      intro level db modPath h1 h2
      unfold providerReqsFuel
      by_cases hg : level > db.maxModuleNesting
      · rw [if_pos hg]; simp
      · rw [if_neg hg]
        cases hbp : ModuleStore.ModuleByPath db modPath with
        | error e => simp
        | ok ar =>
          obtain ⟨a, mod⟩ := ar
          simp only
          apply providerReqsCallsLoop_isSome
          intro p
          exact ih (level + 1) db p (by omega) (by omega)
  refine ⟨part1, ?_, ?_⟩
  · intro fuel level db modPath hg hf
    cases fuel with
    | zero => omega
    | succ f =>
      unfold providerReqsFuel
      rw [if_pos hg]
  · intro db modPath
    exact part1 (db.maxModuleNesting + 2) 0 db modPath (by omega) (by omega)

theorem providerRequirements_terminates_witness :
    (providerReqsFuel 4 dbCyc "/a" 0).isSome ∧
    providerReqsFuel 1 dbCyc "/a" 3 =
      some ([], some (.base (.tooDeepNesting "/a" 2))) ∧
    (ProviderRequirementsForModule dbCyc "/a").isSome ∧
    ProviderRequirementsForModule dbCyc "/a" =
      some ([], some (.base (.tooDeepNesting "/a/x/x/x" 2))) :=
  ⟨providerRequirements_terminates.1 4 0 dbCyc "/a" (by decide) (by decide),
   providerRequirements_terminates.2.1 1 3 dbCyc "/a" (by decide) (by decide),
   providerRequirements_terminates.2.2 dbCyc "/a",
   by rfl⟩

/-!  C9 — racing `Add` during declared-module-call decoding. -/

/-- C9: when `Add` for a child returns `AlreadyExistsError`, the child is
not skipped — its job DAG is still enqueued, with `IgnoreState` forced to
`false`; any other `Add` error skips that child entirely. -/
theorem decodeChild_alreadyExists_clears_ignoreState :
    (∀ (env : FeatureEnv) (dirPath localSource : String) (ignoreState : Bool)
       (st : JobStoreState) (db : ModuleDB) (jobIds : List String)
       (mc : DeclaredModuleCall) (a : Nat),
      mc.sourceAddr = .localAddr localSource →
      env.stat (filepathJoin dirPath localSource) = .ok true →
      env.addInternalErr (filepathJoin dirPath localSource) = none →
      db.tableGet (filepathJoin dirPath localSource) = some a →
      decodeChildStep env dirPath ignoreState (st, db, jobIds) mc =
        ((decodeModuleAtPath env st (filepathJoin dirPath localSource) false).1, db,
         jobIds ++ (decodeModuleAtPath env st (filepathJoin dirPath localSource) false).2.1)) ∧
    (∀ (env : FeatureEnv) (dirPath localSource : String) (ignoreState : Bool)
       (st : JobStoreState) (db : ModuleDB) (jobIds : List String)
       (mc : DeclaredModuleCall) (e : GoErr),
      mc.sourceAddr = .localAddr localSource →
      env.stat (filepathJoin dirPath localSource) = .ok true →
      env.addInternalErr (filepathJoin dirPath localSource) = some e →
      (∀ s, e ≠ .base (.alreadyExistsErr s)) →
      decodeChildStep env dirPath ignoreState (st, db, jobIds) mc = (st, db, jobIds)) := by
  constructor
  · intro env dirPath localSource ignoreState st db jobIds mc a hm hstat hint htab
    unfold decodeChildStep featureStoreAdd ModuleStore.Add
    rcases hd : decodeModuleAtPath env st (filepathJoin dirPath localSource) false
      with ⟨st1, ids1, err1⟩
    simp [hm, hstat, hint, htab, hd]
  · intro env dirPath localSource ignoreState st db jobIds mc e hm hstat hint hne
    unfold decodeChildStep featureStoreAdd
    cases e with
    | base b =>
      cases b with
      | alreadyExistsErr s => exact absurd rfl (hne s)
      | recordNotFoundErr s => simp [hm, hstat, hint]
      | stateNotChangedErr s => simp [hm, hstat, hint]
      | tooDeepNesting p m => simp [hm, hstat, hint]
      | otherErr m => simp [hm, hstat, hint]
    | multi l => simp [hm, hstat, hint]

theorem decodeChild_alreadyExists_clears_ignoreState_witness :
    (decodeChildStep {} "/p" true ({}, dbC9, []) mcForA =
      ((decodeModuleAtPath {} {} "/p/a" false).1, dbC9,
       [] ++ (decodeModuleAtPath {} {} "/p/a" false).2.1)) ∧
    (decodeChildStep envFailAdd "/p" true ({}, {}, []) mcForA = ({}, {}, [])) :=
  ⟨decodeChild_alreadyExists_clears_ignoreState.1 {} "/p" "a" true {} dbC9 [] mcForA 0
     rfl rfl rfl (by decide),
   decodeChild_alreadyExists_clears_ignoreState.2 envFailAdd "/p" "a" true {} {} [] mcForA
     (.base (.otherErr "insert failed")) rfl rfl rfl (fun s => by simp)⟩

/-!  C6 — phase ordering of the modules feature's job DAG. -/

/-- C6: when enqueues succeed, the DAG `didOpen` builds is exactly parse →
metadata (DependsOn parse, carrying the Defer) → registry; the
schema-preload and reference-decoding jobs are created only inside the
metadata job's Defer continuation, where the reference-decoding jobs name
the schema-preload job in `DependsOn`; and `decodeModuleAtPath` builds the
same phase order for a child directory, with metadata depending on parse,
schema preload on metadata, and both reference-decoding jobs on all
three. -/
theorem didOpen_dag_order :
    (∀ (env : FeatureEnv) (st : JobStoreState) (db : ModuleDB) (dir languageID : String)
       (r : ModuleRecord),
      (∀ n, env.enqueueErr n = none) → env.addInternalErr dir = none →
      db.recordAt dir = some r →
      didOpen env st db dir languageID =
        ({ jobs := st.jobs ++
            [(jobIdString st.nextId,
              { dir := dir, opType := .opParseModuleConfiguration, ignoreState := true }),
             (jobIdString (st.nextId + 1),
              { dir := dir, opType := .opLoadModuleMetadata,
                dependsOn := [jobIdString st.nextId], ignoreState := true,
                hasDefer := true }),
             (jobIdString (st.nextId + 2),
              { dir := dir, opType := .opGetModuleDataFromRegistry,
                dependsOn := [jobIdString (st.nextId + 1)], priority := .low })],
           nextId := st.nextId + 3 },
         db, [jobIdString st.nextId, jobIdString (st.nextId + 1)], none)) ∧
    (∀ (env : FeatureEnv) (st : JobStoreState) (db : ModuleDB) (dir : String)
       (jobErr : Option GoErr),
      (∀ n, env.enqueueErr n = none) →
      didOpenMetaDefer env st db dir jobErr =
        (let md := decodeDeclaredModuleCalls env st db dir true
         ({ jobs := md.1.jobs ++
             [(jobIdString md.1.nextId,
               { dir := dir, opType := .opPreloadEmbeddedSchema, ignoreState := true }),
              (jobIdString (md.1.nextId + 1),
               { dir := dir, opType := .opDecodeReferenceTargets,
                 dependsOn := [jobIdString md.1.nextId], ignoreState := true }),
              (jobIdString (md.1.nextId + 2),
               { dir := dir, opType := .opDecodeReferenceOrigins,
                 dependsOn := md.2.2.1 ++ [jobIdString md.1.nextId],
                 ignoreState := true })],
            nextId := md.1.nextId + 3 },
          md.2.1,
          [jobIdString md.1.nextId, jobIdString (md.1.nextId + 1),
           jobIdString (md.1.nextId + 2)],
          none))) ∧
    (∀ (env : FeatureEnv) (st : JobStoreState) (dir : String) (ig : Bool),
      (∀ n, env.enqueueErr n = none) →
      decodeModuleAtPath env st dir ig =
        ({ jobs := st.jobs ++
            [(jobIdString st.nextId,
              { dir := dir, opType := .opParseModuleConfiguration, ignoreState := ig }),
             (jobIdString (st.nextId + 1),
              { dir := dir, opType := .opLoadModuleMetadata,
                dependsOn := [jobIdString st.nextId], ignoreState := ig }),
             (jobIdString (st.nextId + 2),
              { dir := dir, opType := .opPreloadEmbeddedSchema,
                dependsOn := [jobIdString (st.nextId + 1)], ignoreState := ig }),
             (jobIdString (st.nextId + 3),
              { dir := dir, opType := .opDecodeReferenceTargets,
                dependsOn := [jobIdString st.nextId, jobIdString (st.nextId + 1),
                  jobIdString (st.nextId + 2)],
                ignoreState := ig }),
             (jobIdString (st.nextId + 4),
              { dir := dir, opType := .opDecodeReferenceOrigins,
                dependsOn := [jobIdString st.nextId, jobIdString (st.nextId + 1),
                  jobIdString (st.nextId + 2)],
                ignoreState := ig })],
           nextId := st.nextId + 5 },
         [jobIdString st.nextId, jobIdString (st.nextId + 1), jobIdString (st.nextId + 2),
          jobIdString (st.nextId + 3), jobIdString (st.nextId + 4)],
         none)) := by
  refine ⟨?_, ?_, ?_⟩
  · intro env st db dir languageID r hEnq hAdd hRec
    obtain ⟨a, htab, hheap, hbp⟩ := ModuleStore.moduleByPath_of_recordAt hRec
    have hEx : ModuleStore.Exists db dir = true := by simp [ModuleStore.Exists, htab]
    unfold didOpen featureAddIfNotExists ModuleStore.AddIfNotExists
    by_cases hL : languageID = "terraform" <;>
      simp [hL, hAdd, hbp, hEx, enqueueJob, hEnq]
  · intro env st db dir jobErr hEnq
    rcases hmd : decodeDeclaredModuleCalls env st db dir true with ⟨st1, md2⟩
    obtain ⟨db1, modCalls, mcErr⟩ := md2
    unfold didOpenMetaDefer
    rw [hmd]
    simp [enqueueJob, hEnq]
  · intro env st dir ig hEnq
    unfold decodeModuleAtPath collectReferences
    simp [enqueueJob, hEnq, jobIdString_ne_empty, errorOrNil]

theorem didOpen_dag_order_witness :
    (didOpen {} {} dbOne "/m" "terraform" =
      ({ jobs :=
          [(jobIdString 0,
            { dir := "/m", opType := .opParseModuleConfiguration, ignoreState := true }),
           (jobIdString 1,
            { dir := "/m", opType := .opLoadModuleMetadata, dependsOn := [jobIdString 0],
              ignoreState := true, hasDefer := true }),
           (jobIdString 2,
            { dir := "/m", opType := .opGetModuleDataFromRegistry,
              dependsOn := [jobIdString 1], priority := .low })],
         nextId := 3 },
       dbOne, [jobIdString 0, jobIdString 1], none)) ∧
    (didOpenMetaDefer {} {} dbOne "/m" none =
      (let md := decodeDeclaredModuleCalls {} {} dbOne "/m" true
       ({ jobs := md.1.jobs ++
           [(jobIdString md.1.nextId,
             { dir := "/m", opType := .opPreloadEmbeddedSchema, ignoreState := true }),
            (jobIdString (md.1.nextId + 1),
             { dir := "/m", opType := .opDecodeReferenceTargets,
               dependsOn := [jobIdString md.1.nextId], ignoreState := true }),
            (jobIdString (md.1.nextId + 2),
             { dir := "/m", opType := .opDecodeReferenceOrigins,
               dependsOn := md.2.2.1 ++ [jobIdString md.1.nextId], ignoreState := true })],
          nextId := md.1.nextId + 3 },
        md.2.1,
        [jobIdString md.1.nextId, jobIdString (md.1.nextId + 1),
         jobIdString (md.1.nextId + 2)],
        none))) ∧
    (decodeModuleAtPath {} {} "/c" true =
      ({ jobs :=
          [(jobIdString 0,
            { dir := "/c", opType := .opParseModuleConfiguration, ignoreState := true }),
           (jobIdString 1,
            { dir := "/c", opType := .opLoadModuleMetadata, dependsOn := [jobIdString 0],
              ignoreState := true }),
           (jobIdString 2,
            { dir := "/c", opType := .opPreloadEmbeddedSchema,
              dependsOn := [jobIdString 1], ignoreState := true }),
           (jobIdString 3,
            { dir := "/c", opType := .opDecodeReferenceTargets,
              dependsOn := [jobIdString 0, jobIdString 1, jobIdString 2],
              ignoreState := true }),
           (jobIdString 4,
            { dir := "/c", opType := .opDecodeReferenceOrigins,
              dependsOn := [jobIdString 0, jobIdString 1, jobIdString 2],
              ignoreState := true })],
         nextId := 5 },
       [jobIdString 0, jobIdString 1, jobIdString 2, jobIdString 3, jobIdString 4],
       none)) := by
  refine ⟨?_, ?_, ?_⟩
  · simpa using didOpen_dag_order.1 {} {} dbOne "/m" "terraform" (newModule "/m")
      (fun n => rfl) rfl (by rfl)
  · simpa using didOpen_dag_order.2.1 {} {} dbOne "/m" none (fun n => rfl)
  · simpa using didOpen_dag_order.2.2 {} {} "/c" true (fun n => rfl)

/-!  C1 — error aggregation in `decodeDeclaredModuleCalls`.

The loop does continue past a failing child, but the source never
reassigns the result of `multierror.Append(errs, err)`, so `errs` stays
the nil `*multierror.Error` and `errs.ErrorOrNil()` is nil: the per-child
errors are silently dropped instead of being aggregated into a combined
multi-error. -/

/-- C1, evaluated at the failing input: with child `./a` missing on disk
and child `./b` present, the loop still processes `./b` (its record is
added and its five jobs are enqueued), but the function's error result is
`none` — no combined multi-error aggregating the per-child failure is
returned, because every `multierror.Append(errs, ...)` result is
discarded. -/
theorem decodeDeclaredModuleCalls_drops_child_errors :
    (decodeDeclaredModuleCalls envStatFailA {} dbParent "/p" true).2.2.2 = none ∧
    (decodeDeclaredModuleCalls envStatFailA {} dbParent "/p" true).2.2.1.length = 5 ∧
    ((decodeDeclaredModuleCalls envStatFailA {} dbParent "/p" true).2.1).recordAt "/p/b" =
      some (newModule "/p/b") :=
  ⟨by rfl, by rfl, by rfl⟩

end TfLs
